import Mathlib

set_option linter.unusedVariables false

/-! Shallow embedding of `aict_tools/apply.py`: the selection ("cut")
configuration, the mask evaluators (`create_mask_h5py`,
`create_mask_table`), the chunked filtered copy
(`apply_cuts_h5py_chunked`) and the cascade filter over CTA DL1 files
(`apply_cuts_cta_dl1`).  Cell values are modelled as integers, numpy
arrays as lists, and Python exceptions as an explicit error type
returned through `Except`. -/

/-- The six comparison functions from Python's `operator` module that the
`OPERATORS` dict of `apply.py` maps tokens to. -/
inductive Op
  | lt | le | eq | ne | gt | ge
deriving DecidableEq, Repr

/-- Element-wise application of a comparison operator to a cell value and
the literal value from the selection configuration. -/
def applyOp : Op → Int → Int → Bool
  | .lt, a, b => decide (a < b)
  | .le, a, b => decide (a ≤ b)
  | .eq, a, b => decide (a = b)
  | .ne, a, b => decide (a ≠ b)
  | .gt, a, b => decide (a > b)
  | .ge, a, b => decide (a ≥ b)

/-- The `OPERATORS` dict of `apply.py` (lines 14-22): maps an operator
token to a comparison function; a missing token is a Python `KeyError`,
modelled as `none`.  Note the extra `'='` spelling mapped to equality. -/
def OPERATORS : String → Option Op
  | "<" => some .lt
  | "lt" => some .lt
  | "<=" => some .le
  | "le" => some .le
  | "==" => some .eq
  | "eq" => some .eq
  | "=" => some .eq
  | "!=" => some .ne
  | "ne" => some .ne
  | ">" => some .gt
  | "gt" => some .gt
  | ">=" => some .ge
  | "ge" => some .ge
  | _ => none

/-- One selection criterion: column name, operator token, literal value
(a Python `column: [operator, value]` entry). -/
abbrev Criterion := String × String × Int

/-- One group of the list-form selection config: a Python dict
`{column: [operator, value]}`, modelled as an association list.  The code
requires the dict to hold exactly one entry. -/
abbrev SelGroup := List Criterion

/-- A selection configuration: either the legacy flat dict
`column -> [operator, value]` or the list-of-single-entry-dicts form. -/
inductive SelectionConfig
  | legacy (entries : List Criterion)
  | groups (gs : List SelGroup)
deriving DecidableEq, Repr

/-- The legacy-support normalisation performed at the top of both mask
evaluators: `[{k: v} for k, v in selection_config.items()]`. -/
def normalizeConfig : SelectionConfig → List SelGroup
  | .legacy entries => entries.map (fun e => [e])
  | .groups gs => gs

/-- An h5py column (dataset): rank 1, rank 2 (with its second-axis
length), or any other rank, with `nrows` rows along axis 0 and `dims`
the lengths of the remaining axes (rank `dims.length + 1`, in real files
at least 3; rank-0 scalar datasets are not modelled).  A rank-other
dataset's values never reach the output, but its shape takes part in
numpy broadcasting when a selection criterion addresses it. -/
inductive ColData
  | d1 (xs : List Int)
  | d2 (dim : Nat) (rows : List (List Int))
  | dOther (dims : List Nat) (nrows : Nat)
deriving DecidableEq, Repr

/-- The `ndim` attribute of a dataset. -/
def ColData.ndim : ColData → Nat
  | .d1 _ => 1
  | .d2 _ _ => 2
  | .dOther dims _ => dims.length + 1

/-- Number of rows (length of axis 0) of a dataset. -/
def ColData.nrows : ColData → Nat
  | .d1 xs => xs.length
  | .d2 _ rows => rows.length
  | .dOther _ nr => nr

/-- An h5py group holding datasets, in iteration order of
`infile[key].items()` (h5py iterates name-sorted; we take the list as
given in that order).  h5py groups cannot hold two datasets of the same
name, so well-formed tables have nodup names. -/
abbrev H5Table := List (String × ColData)

/-- Dataset lookup `infile[key][name]`: `none` is a Python `KeyError`. -/
def lookupCol (t : H5Table) (name : String) : Option ColData :=
  (t.find? (fun p => p.1 == name)).map (fun p => p.2)

/-- Python slice `xs[s:e]` (start and stop both clamped to the length). -/
def pySlice (xs : List α) (s e : Nat) : List α :=
  (xs.take e).drop s

/-- numpy boolean-mask indexing `xs[mask]`.  numpy raises on a length
mismatch; every reachable call site in the modelled code uses a mask of
exactly the slice's length, so the truncating zip is adequate. -/
def applyMask (xs : List α) (mask : List Bool) : List α :=
  (xs.zip mask).filterMap (fun p => if p.2 then some p.1 else none)

/-- numpy `np.logical_and(a, b)` on two boolean arrays.  numpy raises on
a length mismatch of two non-scalar arrays; every reachable call site in
the modelled code combines arrays of equal length. -/
def npLogicalAnd (a b : List Bool) : List Bool :=
  a.zipWith (fun x y => x && y) b

/-- numpy `np.count_nonzero(mask)` for a boolean mask. -/
def countNonzero (mask : List Bool) : Nat :=
  mask.count true

/-- Python exceptions raised by the modelled code. -/
inductive Err
  /-- `ValueError('Expected dict with single entry column: [operator, value].')` -/
  | valueError
  /-- `IndexError` from `list(c.items())[0]` on an empty dict. -/
  | indexError
  /-- `KeyError(name)`: unknown operator token, missing input column, or a
  missing output dataset. -/
  | keyError (name : String)
  /-- Scan classification, not an exception the program model raises: a
  selection criterion addressed a column that is not rank 1.  The
  evaluator then builds a boolean selection of rank at least 2, and the
  actual failure depends on the chunk's shape — `broadcastError` when
  `np.logical_and` cannot broadcast it with the running mask, otherwise
  a rank-2-or-higher mask that fails boolean indexing later
  (`maskIndexError`).  Returned only by the specification-side scan
  `groupErr?`. -/
  | rankError (name : String)
  /-- numpy `ValueError: operands could not be broadcast together`, with
  the two shapes, raised by `np.logical_and`. -/
  | broadcastError (s1 s2 : List Nat)
  /-- `IndexError: too many indices for array` from boolean-mask
  indexing with a mask of rank 2 or higher. -/
  | maskIndexError
  /-- h5py `create_dataset` refuses a `maxshape` smaller than the data's
  shape in some axis. -/
  | createError (name : String)
  /-- an element-wise write whose value shape does not match the target
  region (unreachable in runs starting from an actual h5py file). -/
  | shapeError (name : String)
deriving DecidableEq, Repr

/-- Whether an error value is the scan's chunk-shape-dependent marker
`rankError` (see `groupErr?` and `Err.rankError`). -/
def Err.isRankMarker : Err → Bool
  | .rankError _ => true
  | _ => false

/-- Python `start or 0` for an optional int: both `None` and `0` are
falsy and give `0`. -/
def pyStart (s? : Option Nat) : Nat :=
  s?.getD 0

/-- Python `min(n_events, end) if end else n_events` for an optional int:
`None` and `0` are falsy and give `n_events`. -/
def pyEnd (e? : Option Nat) (n_events : Nat) : Nat :=
  match e? with
  | none => n_events
  | some 0 => n_events
  | some e => min n_events e

/-- A boolean numpy array produced during mask evaluation: rank 1 with
its values (the only case whose values the modelled code can observe),
or rank 2 or higher with only its shape.  Such a higher-rank mask arises
when a selection criterion addresses a column that is not rank 1; its
values are never observable — the copy fails on boolean indexing before
reading them, and `np.count_nonzero` of such a mask is only reached in
an unreachable branch (see `MaskArray.countNonzero`). -/
inductive MaskArray
  | one (bits : List Bool)
  | multi (shape : List Nat)
deriving DecidableEq, Repr

/-- The numpy shape of a boolean mask array. -/
def MaskArray.shape : MaskArray → List Nat
  | .one bits => [bits.length]
  | .multi sh => sh

/-- numpy `np.count_nonzero` on a mask array.  The values of a
rank-2-or-higher mask are not tracked: in any run starting from an
actual h5py file such a mask never meets this call (it would require an
existing output dataset for a rank-other input column, which chunk 0
never creates), and the count is modelled as 0. -/
def maskCountNonzero : MaskArray → Nat
  | .one bits => countNonzero bits
  | .multi _ => 0

/-- numpy broadcasting of two shapes, given with their dimension lists
reversed (right-aligned): dimensions pair up from the right, each pair
must be equal or contain a 1, and the result takes the maximum. -/
def npBroadcastRev : List Nat → List Nat → Option (List Nat)
  | [], ys => some ys
  | x :: xs, [] => some (x :: xs)
  | x :: xs, y :: ys =>
    if x = y ∨ x = 1 ∨ y = 1 then
      (npBroadcastRev xs ys).map (fun zs => max x y :: zs)
    else none

/-- numpy broadcasting of two shapes. -/
def npBroadcast (a b : List Nat) : Option (List Nat) :=
  (npBroadcastRev a.reverse b.reverse).map List.reverse

/-- numpy `np.logical_and(mask, selection)` on boolean arrays of any
rank.  Two rank-1 arrays combine element-wise (they have equal lengths
at every reachable call site, as for `npLogicalAnd`); any combination
involving a rank-2-or-higher array broadcasts the shapes, yielding a
higher-rank mask on success and numpy's `ValueError: operands could not
be broadcast together` on failure. -/
def npLogicalAndArr (mask sel : MaskArray) : Except Err MaskArray :=
  match mask, sel with
  | .one a, .one b => .ok (.one (npLogicalAnd a b))
  | ma, sb =>
    match npBroadcast ma.shape sb.shape with
    | some sh => .ok (.multi sh)
    | none => .error (.broadcastError ma.shape sb.shape)

/-- The boolean array
`OPERATORS[operator](infile[key][name][start:end], value)`: the column
sliced along axis 0 and compared element-wise with the scalar value.  A
rank-1 column yields a rank-1 array with its values; a higher-rank
column yields an array of the slice's shape. -/
def selectionArray (o : Op) (value : Int) (s e : Nat) : ColData → MaskArray
  | .d1 xs => .one ((pySlice xs s e).map (fun x => applyOp o x value))
  | .d2 dim rows => .multi [(pySlice rows s e).length, dim]
  | .dOther dims nrows => .multi ((min e nrows - s) :: dims)

/-- One iteration of the criteria loop of `create_mask_h5py` (lines
104-118): singleton-dict check, operator lookup, column lookup, slice,
element-wise compare, and `np.logical_and` into the running mask.  The
operator lookup `OPERATORS[operator]` is evaluated before the column
access in the Python expression.  A criterion addressing a non-rank-1
column does not fail by itself: it produces a rank-2-or-higher selection
whose combination with the mask is governed by numpy broadcasting
(`npLogicalAndArr`). -/
def maskStepH5 (infile : H5Table) (s e : Nat) (mask : MaskArray) (g : SelGroup) :
    Except Err MaskArray :=
  if g.length > 1 then .error .valueError
  else
    match g with
    | [] => .error .indexError
    | (name, op, value) :: _ =>
      match OPERATORS op with
      | none => .error (.keyError op)
      | some o =>
        match lookupCol infile name with
        | none => .error (.keyError name)
        | some data => npLogicalAndArr mask (selectionArray o value s e data)

/-- The criteria loop of `create_mask_h5py`, folding the mask through the
groups in order. -/
def maskLoopH5 (infile : H5Table) (s e : Nat) :
    List SelGroup → MaskArray → Except Err MaskArray
  | [], mask => .ok mask
  | g :: gs, mask =>
    match maskStepH5 infile s e mask g with
    | .error err => .error err
    | .ok mask' => maskLoopH5 infile s e gs mask'

/-- The mask evaluator `create_mask_h5py` (apply.py lines 86-120).  The
`infile[key]` group is passed directly as the table. -/
def create_mask_h5py (infile : H5Table) (selection_config : SelectionConfig)
    (n_events : Nat) (start? e? : Option Nat) : Except Err MaskArray :=
  maskLoopH5 infile (pyStart start?) (pyEnd e? n_events)
    (normalizeConfig selection_config)
    (.one (List.replicate (pyEnd e? n_events - pyStart start?) true))

/-- A pytables `Table`: its name, column names, and rows (each row a list
of cell values in column order). -/
structure PTable where
  name : String
  colnames : List String
  rows : List (List Int)
deriving DecidableEq, Repr

/-- Cell access `row[name]` on a pytables row: `none` is a Python
`KeyError`. -/
def rowVal (colnames : List String) (row : List Int) (name : String) :
    Option Int :=
  (colnames.indexOf? name).bind (fun i => row.get? i)

/-- Column access `table.col(name)` on a pytables table (callers check
`name in table.colnames` first; rows of an actual pytables table all
carry every column, so the default for a short row is unreachable). -/
def PTable.col (t : PTable) (name : String) : List Int :=
  match t.colnames.indexOf? name with
  | none => []
  | some i => t.rows.map (fun r => r.getD i 0)

/-- One iteration of the criteria loop of `create_mask_table` (lines
140-159): singleton-dict check, explicit `colnames` membership check
(raising `KeyError` with the column name), then operator lookup, slice,
compare and combine.  Unlike `create_mask_h5py`, the column check comes
before the `OPERATORS[operator]` lookup. -/
def maskStepTable (t : PTable) (s e : Nat) (mask : List Bool) (g : SelGroup) :
    Except Err (List Bool) :=
  if g.length > 1 then .error .valueError
  else
    match g with
    | [] => .error .indexError
    | (name, op, value) :: _ =>
      if t.colnames.contains name then
        match OPERATORS op with
        | none => .error (.keyError op)
        | some o =>
          .ok (npLogicalAnd mask
            ((pySlice (t.col name) s e).map (fun x => applyOp o x value)))
      else .error (.keyError name)

/-- The criteria loop of `create_mask_table`. -/
def maskLoopTable (t : PTable) (s e : Nat) :
    List SelGroup → List Bool → Except Err (List Bool)
  | [], mask => .ok mask
  | g :: gs, mask =>
    match maskStepTable t s e mask g with
    | .error err => .error err
    | .ok mask' => maskLoopTable t s e gs mask'

/-- The mask evaluator `create_mask_table` (apply.py lines 123-161). -/
def create_mask_table (t : PTable) (selection_config : SelectionConfig)
    (n_events : Nat) (start? e? : Option Nat) : Except Err (List Bool) :=
  maskLoopTable t (pyStart start?) (pyEnd e? n_events)
    (normalizeConfig selection_config)
    (List.replicate (pyEnd e? n_events - pyStart start?) true)

/-- Modelled from the spec: `get_number_of_rows_in_table` comes from the
repository's `io` module, which is not under `src/`.  Per the spec it
returns the total number of rows in the table, and all columns of a
table share that row count, so we read it off the first column (0 for a
table with no columns). -/
def get_number_of_rows_in_table : H5Table → Nat
  | [] => 0
  | (_, c) :: _ => c.nrows

/-- An output dataset of the chunked copy: rank 1, or rank 2 with its
second-axis length. -/
inductive OutCol
  | o1 (xs : List Int)
  | o2 (dim : Nat) (rows : List (List Int))
deriving DecidableEq, Repr

/-- The output group of `apply_cuts_h5py_chunked`, datasets in creation
order. -/
abbrev OutTable := List (String × OutCol)

/-- Dataset lookup `group[name]` on the output group. -/
def lookupOut (out : OutTable) (name : String) : Option OutCol :=
  (out.find? (fun p => p.1 == name)).map (fun p => p.2)

/-- In-place mutation of the dataset `group[name]` in the output group. -/
def updateOut (out : OutTable) (name : String) (oc : OutCol) : OutTable :=
  out.map (fun p => if p.1 == name then (p.1, oc) else p)

/-- The first-chunk branch of the column loop of `apply_cuts_h5py_chunked`
(lines 192-203): create each output dataset from the masked slice; rank-1
datasets get `maxshape=(None,)`, rank-2 datasets get `maxshape=(None, 2)`
which h5py refuses when the data's second axis exceeds 2; any other rank
is skipped with a warning (no dataset is created).  The `data=` argument
is evaluated before h5py's `maxshape` validation, so when the mask has
rank 2 or higher the boolean indexing raises `IndexError` first. -/
def createColumns (s e : Nat) (mask : MaskArray) :
    List (String × ColData) → Except Err OutTable
  | [] => .ok []
  | (name, data) :: rest =>
    match data with
    | .d1 xs =>
      match mask with
      | .one bits =>
        (createColumns s e mask rest).map
          (fun out => (name, .o1 (applyMask (pySlice xs s e) bits)) :: out)
      | .multi _ => .error .maskIndexError
    | .d2 dim rows =>
      match mask with
      | .one bits =>
        if 2 < dim then .error (.createError name)
        else
          (createColumns s e mask rest).map
            (fun out => (name, .o2 dim (applyMask (pySlice rows s e) bits)) :: out)
      | .multi _ => .error .maskIndexError
    | .dOther _ _ => createColumns s e mask rest

/-- The later-chunk branch of the column loop (lines 205-216): look the
output dataset up (a dataset skipped on the first chunk was never
created, so the lookup raises `KeyError`), resize axis 0 by the number of
passing rows and write the masked slice at the tail.  The resize plus
write is modelled by its net effect of appending; for a rank-other input
dataset the code resizes and then only warns, leaving the new rows at
their fill value 0.  A mask of rank 2 or higher raises `IndexError` at
the boolean-indexed write (after the resize, whose effect the exception
discards along with the rest of the run). -/
def appendColumns (s e : Nat) (mask : MaskArray) :
    List (String × ColData) → OutTable → Except Err OutTable
  | [], out => .ok out
  | (name, data) :: rest, out =>
    match lookupOut out name with
    | none => .error (.keyError name)
    | some oc =>
      match data, oc with
      | .d1 xs, .o1 ys =>
        match mask with
        | .one bits =>
          appendColumns s e mask rest
            (updateOut out name (.o1 (ys ++ applyMask (pySlice xs s e) bits)))
        | .multi _ => .error .maskIndexError
      | .d2 dim rows, .o2 odim ys =>
        if dim == odim then
          match mask with
          | .one bits =>
            appendColumns s e mask rest
              (updateOut out name
                (.o2 odim (ys ++ applyMask (pySlice rows s e) bits)))
          | .multi _ => .error .maskIndexError
        else .error (.shapeError name)
      | .dOther _ _, .o1 ys =>
        appendColumns s e mask rest
          (updateOut out name (.o1 (ys ++ List.replicate (maskCountNonzero mask) 0)))
      | .dOther _ _, .o2 odim ys =>
        appendColumns s e mask rest
          (updateOut out name
            (.o2 odim (ys ++ List.replicate (maskCountNonzero mask) (List.replicate odim 0))))
      | _, _ => .error (.shapeError name)

/-- The chunk loop `for chunk in range(n_chunks)` of
`apply_cuts_h5py_chunked`, by recursion on the number of remaining
chunks. -/
def runChunks (infile : H5Table) (cfg : SelectionConfig)
    (n_events chunksize : Nat) :
    Nat → Nat → OutTable → Except Err OutTable
  | _, 0, out => .ok out
  | chunk, r + 1, out =>
    let s := chunk * chunksize
    let e := min n_events ((chunk + 1) * chunksize)
    match create_mask_h5py infile cfg n_events (some s) (some e) with
    | .error err => .error err
    | .ok mask =>
      match (if chunk == 0 then createColumns s e mask infile
             else appendColumns s e mask infile out) with
      | .error err => .error err
      | .ok out' => runChunks infile cfg n_events chunksize (chunk + 1) r out'

/-- The chunked filtered copy `apply_cuts_h5py_chunked` (apply.py lines
164-216).  `int(np.ceil(n_events / chunksize))` is modelled as exact
ceiling division (the code requires a positive chunksize).  The result
is the final content of the output group; an exception leaves no
completed output. -/
def apply_cuts_h5py_chunked (infile : H5Table) (cfg : SelectionConfig)
    (chunksize : Nat) : Except Err OutTable :=
  runChunks infile cfg (get_number_of_rows_in_table infile) chunksize 0
    ((get_number_of_rows_in_table infile + chunksize - 1) / chunksize) []

/-- A CTA DL1 file for `apply_cuts_cta_dl1`: the tables under
`/dl1/event/telescope/parameters` and (in `walk_nodes` order) every other
table of the file. -/
structure DL1Input where
  parameters : List PTable
  others : List PTable
deriving DecidableEq, Repr

/-- The phase-1 row loop (lines 251-256): count every row; for a row
passing the mask record its `(obs_id, event_id)` key in the survivor set
(a Python set, modelled as a list whose membership is the observable) and
append the row to the new table. -/
def phase1Rows (colnames : List String) :
    List (List Int × Bool) → List (Int × Int) → List (List Int) → Nat → Nat →
    Except Err (List (Int × Int) × List (List Int) × Nat × Nat)
  | [], surv, outRows, nb, na => .ok (surv, outRows, nb, na)
  | (row, m) :: rest, surv, outRows, nb, na =>
    if m then
      match rowVal colnames row "obs_id" with
      | none => .error (.keyError "obs_id")
      | some o =>
        match rowVal colnames row "event_id" with
        | none => .error (.keyError "event_id")
        | some ev =>
          phase1Rows colnames rest ((o, ev) :: surv) (outRows ++ [row])
            (nb + 1) (na + 1)
    else phase1Rows colnames rest surv outRows (nb + 1) na

/-- The phase-1 table loop (lines 237-256): for every parameter table,
evaluate the mask over the whole table and run the row loop, accumulating
the survivor key set and the row counts. -/
def phase1Tables (cfg : SelectionConfig) :
    List PTable → List (Int × Int) → List PTable → Nat → Nat →
    Except Err (List (Int × Int) × List PTable × Nat × Nat)
  | [], surv, outs, nb, na => .ok (surv, outs, nb, na)
  | t :: rest, surv, outs, nb, na =>
    match create_mask_table t cfg t.rows.length none none with
    | .error err => .error err
    | .ok mask =>
      match phase1Rows t.colnames (t.rows.zip mask) surv [] nb na with
      | .error err => .error err
      | .ok (surv', outRows, nb', na') =>
        phase1Tables cfg rest surv' (outs ++ [{ t with rows := outRows }]) nb' na'

/-- The phase-2 row loop (lines 271-276): when the table has an
`event_id` column, look up `row['obs_id']` (a `KeyError` when that column
is absent) and `row['event_id']` and keep the row only when its key is in
the survivor set; otherwise keep every row. -/
def phase2Rows (colnames : List String) (surv : List (Int × Int)) :
    List (List Int) → Except Err (List (List Int))
  | [] => .ok []
  | row :: rest =>
    if colnames.contains "event_id" then
      match rowVal colnames row "obs_id" with
      | none => .error (.keyError "obs_id")
      | some o =>
        match rowVal colnames row "event_id" with
        | none => .error (.keyError "event_id")
        | some ev =>
          if (o, ev) ∈ surv then
            (phase2Rows colnames surv rest).map (fun rs => row :: rs)
          else phase2Rows colnames surv rest
    else (phase2Rows colnames surv rest).map (fun rs => row :: rs)

/-- The phase-2 table loop (lines 258-276): every table outside the
parameters group is copied through the row filter (the survivor set is
complete and read-only by now). -/
def phase2Tables (surv : List (Int × Int)) :
    List PTable → Except Err (List PTable)
  | [] => .ok []
  | t :: rest =>
    match phase2Rows t.colnames surv t.rows with
    | .error err => .error err
    | .ok rows' =>
      (phase2Tables surv rest).map (fun ts => { t with rows := rows' } :: ts)

/-- The cascade filter `apply_cuts_cta_dl1` (apply.py lines 219-278).
The result carries the filtered parameter tables, the filtered other
tables, and the returned `(n_rows_before, n_rows_after)` counts. -/
def apply_cuts_cta_dl1 (input : DL1Input) (cfg : SelectionConfig) :
    Except Err (List PTable × List PTable × Nat × Nat) :=
  match phase1Tables cfg input.parameters [] [] 0 0 with
  | .error err => .error err
  | .ok (surv, paramOut, nb, na) =>
    match phase2Tables surv input.others with
    | .error err => .error err
    | .ok othersOut => .ok (paramOut, othersOut, nb, na)

/-! Specification-side characterisations used by the theorems: whether a
selection configuration compiles against a table, which row indices pass
it, and the output the chunked copy produces on a well-formed table. -/

/-- Whether one criterion holds for row `r` (after a successful compile,
`r` is always in range and the fallbacks are never used). -/
def critPass (infile : H5Table) (r : Nat) (c : Criterion) : Bool :=
  match OPERATORS c.2.1, lookupCol infile c.1 with
  | some o, some (.d1 xs) => applyOp o (xs.getD r 0) c.2.2
  | _, _ => false

/-- Whether row `r` passes every criterion of every group. -/
def rowPass (infile : H5Table) (cfg : SelectionConfig) (r : Nat) : Bool :=
  (normalizeConfig cfg).all (fun g => g.all (critPass infile r))

/-- The first problem one group of the configuration exhibits in
`create_mask_h5py`, if any, following the checking order of
`maskStepH5`: the chunk-independent configuration exceptions, or the
`rankError` marker for a criterion addressing a non-rank-1 column. -/
def groupErr? (infile : H5Table) (g : SelGroup) : Option Err :=
  if g.length > 1 then some .valueError
  else
    match g with
    | [] => some .indexError
    | (name, op, _) :: _ =>
      match OPERATORS op with
      | none => some (.keyError op)
      | some _ =>
        match lookupCol infile name with
        | none => some (.keyError name)
        | some (.d1 _) => none
        | some _ => some (.rankError name)

/-- The first problem the criteria loop of `create_mask_h5py` hits over a
configuration, if any: an exception value for the chunk-independent
configuration errors, or the `rankError` marker when the first problem
is a criterion addressing a non-rank-1 column (whose actual numpy
failure depends on the chunk bounds). -/
def selectionErr? (infile : H5Table) (cfg : SelectionConfig) : Option Err :=
  (normalizeConfig cfg).findSome? (groupErr? infile)

/-- Whether the first problem the criteria scan finds — if any — is
independent of the chunk bounds: a malformed group, an unknown operator
or a missing column.  False exactly when the scan first hits a criterion
addressing a non-rank-1 column, where the numpy failure depends on the
chunk's length (`broadcastError` or `maskIndexError`). -/
def chunkIndependentScan (infile : H5Table) (cfg : SelectionConfig) : Bool :=
  match selectionErr? infile cfg with
  | some err => !err.isRankMarker
  | none => true

/-- The first exception the first-chunk column loop raises, if any: h5py
refuses `maxshape=(None, 2)` for a rank-2 dataset whose second axis
exceeds 2. -/
def columnsErr? (infile : H5Table) : Option Err :=
  infile.findSome? (fun p =>
    match p.2 with
    | .d2 dim _ => if 2 < dim then some (.createError p.1) else none
    | _ => none)

/-- Row indices below `p` that pass the selection. -/
def keptTo (infile : H5Table) (cfg : SelectionConfig) (p : Nat) : List Nat :=
  (List.range p).filter (rowPass infile cfg)

/-- The output dataset a column yields for a given list of passing row
indices (the rank-other case never reaches the output and is arbitrary). -/
def specColD (data : ColData) (idxs : List Nat) : OutCol :=
  match data with
  | .d1 xs => .o1 (idxs.map (fun r => xs.getD r 0))
  | .d2 dim rows => .o2 dim (idxs.map (fun r => rows.getD r []))
  | .dOther _ _ => .o1 []

/-- An output table whose per-column passing-index list is given by a
function of the column name (used to describe the intermediate states of
the later-chunk column loop). -/
def mixedOut (infile : H5Table) (f : String → List Nat) : OutTable :=
  infile.map (fun p => (p.1, specColD p.2 (f p.1)))

/-- The output of the chunked copy after all rows below `p` have been
processed. -/
def specOut (infile : H5Table) (cfg : SelectionConfig) (p : Nat) : OutTable :=
  mixedOut infile (fun _ => keptTo infile cfg p)

/-- Every column is rank 1 or rank 2. -/
def supportedRanks (infile : H5Table) : Bool :=
  infile.all (fun p =>
    match p.2 with
    | .dOther _ _ => false
    | _ => true)

/-- Every rank-2 column has second-axis length at most 2 (so its h5py
creation with `maxshape=(None, 2)` succeeds). -/
def dimsOk (infile : H5Table) : Bool :=
  infile.all (fun p =>
    match p.2 with
    | .d2 dim _ => decide (dim ≤ 2)
    | _ => true)

/-- Every column has exactly `n` rows (the table invariant all columns of
a table share the row count). -/
def tableLenOk (infile : H5Table) (n : Nat) : Bool :=
  infile.all (fun p => p.2.nrows == n)

/-- The shape of an input column: rank 1, or rank 2 with its second-axis
length.  A rank-other column carries no output shape and is mapped to
`one`; shapes are only compared on tables without rank-other columns. -/
inductive ColShape
  | one
  | two (dim : Nat)
deriving DecidableEq, Repr

/-- Shape of an input column. -/
def ColData.shape : ColData → ColShape
  | .d1 _ => .one
  | .d2 dim _ => .two dim
  | .dOther _ _ => .one

/-- Shape of an output column. -/
def OutCol.shape : OutCol → ColShape
  | .o1 _ => .one
  | .o2 dim _ => .two dim

/-- Whether one criterion holds for row `r` of a pytables table (after a
successful compile the fallbacks are never used). -/
def critPassT (t : PTable) (r : Nat) (c : Criterion) : Bool :=
  if t.colnames.contains c.1 then
    match OPERATORS c.2.1 with
    | some o => applyOp o ((t.col c.1).getD r 0) c.2.2
    | none => false
  else false

/-- Whether row `r` of a pytables table passes every criterion. -/
def rowPassT (t : PTable) (cfg : SelectionConfig) (r : Nat) : Bool :=
  (normalizeConfig cfg).all (fun g => g.all (critPassT t r))

/-- The exception one group of the configuration raises in
`create_mask_table`, if any; mirrors the checking order of
`maskStepTable` (the column-membership check precedes the operator
lookup there). -/
def groupErrT? (t : PTable) (g : SelGroup) : Option Err :=
  if g.length > 1 then some .valueError
  else
    match g with
    | [] => some .indexError
    | (name, op, _) :: _ =>
      if t.colnames.contains name then
        match OPERATORS op with
        | none => some (.keyError op)
        | some _ => none
      else some (.keyError name)

/-- The first exception the criteria loop of `create_mask_table` raises
over a configuration, if any. -/
def selectionErrT? (t : PTable) (cfg : SelectionConfig) : Option Err :=
  (normalizeConfig cfg).findSome? (groupErrT? t)

/-- The `(obs_id, event_id)` key of a row (callers ensure both key
columns exist). -/
def keyOf (colnames : List String) (row : List Int) : Int × Int :=
  ((rowVal colnames row "obs_id").getD 0, (rowVal colnames row "event_id").getD 0)

/-- Keys of the rows of one parameter table that pass the selection. -/
def passingKeys (cfg : SelectionConfig) (t : PTable) : List (Int × Int) :=
  ((List.range t.rows.length).filter (rowPassT t cfg)).map
    (fun i => keyOf t.colnames (t.rows.getD i []))

/-- The survivor key set of a cascade run: the keys of all
parameter-table rows that pass the selection. -/
def survivorsSpec (input : DL1Input) (cfg : SelectionConfig) : List (Int × Int) :=
  (input.parameters.map (passingKeys cfg)).flatten

/-- The cascade scenario of the specification (scenario 5): one
parameter table keyed (1,1), (1,2), (2,1) with a `length` column, a
dependent images table keyed (1,1), (1,2), (2,1), (2,2), and a keyless
metadata table. -/
def scenarioInput : DL1Input :=
  ⟨[⟨"tel1", ["obs_id", "event_id", "length"],
    [[1, 1, 10], [1, 2, 30], [2, 1, 5]]⟩],
   [⟨"images", ["obs_id", "event_id", "img"],
      [[1, 1, 7], [1, 2, 8], [2, 1, 9], [2, 2, 6]]⟩,
    ⟨"meta", ["run"], [[42], [43]]⟩]⟩

/-- The selection of the cascade scenario, keeping keys (1,1) and (2,1). -/
def scenarioSelection : SelectionConfig :=
  .groups [[("length", ("<=", 10))]]

/-! Generic list lemmas. -/

theorem pySlice_eq_range'_map {α : Type} (xs : List α) (d : α) :
    ∀ (k s : Nat), s + k ≤ xs.length →
      (xs.drop s).take k = (List.range' s k).map (fun r => xs.getD r d) := by
  intro k
  induction k with
  | zero => intro s _; simp
  | succ k ih =>
    intro s hs
    have hslen : s < xs.length := by omega
    rw [List.drop_eq_getElem_cons hslen, List.take_succ_cons,
      List.range'_succ s k 1, List.map_cons, ih (s + 1) (by omega),
      List.getD_eq_getElem xs d hslen]

theorem pySlice_eq_map {α : Type} (xs : List α) (d : α) (s e : Nat)
    (hse : s ≤ e) (he : e ≤ xs.length) :
    pySlice xs s e = (List.range' s (e - s)).map (fun r => xs.getD r d) := by
  rw [pySlice, List.drop_take, pySlice_eq_range'_map xs d (e - s) s (by omega)]

theorem applyMask_map {α : Type} (l : List Nat) (f : Nat → α) (g : Nat → Bool) :
    applyMask (l.map f) (l.map g) = (l.filter g).map f := by
  induction l with
  | nil => rfl
  | cons a l ih =>
    simp only [List.map_cons, applyMask, List.zip_cons_cons, List.filterMap_cons,
      List.filter_cons] at *
    cases h : g a <;> simp [h, ih]

theorem npLogicalAnd_map (l : List Nat) (f g : Nat → Bool) :
    npLogicalAnd (l.map f) (l.map g) = l.map (fun r => f r && g r) := by
  simp [npLogicalAnd, List.zipWith_map, List.zipWith_same]

theorem replicate_true_eq_map (s k : Nat) :
    List.replicate k true = (List.range' s k).map (fun _ => true) := by
  simp [List.map_const', List.length_range']

theorem range'_split (s e p : Nat) (h1 : s ≤ p) (h2 : p ≤ e) :
    List.range' s (e - s) = List.range' s (p - s) ++ List.range' p (e - p) := by
  have := List.range'_append s (p - s) (e - p) 1
  simp only [Nat.one_mul] at this
  have hsp : s + (p - s) = p := by omega
  rw [hsp] at this
  rw [this]
  congr 1
  omega

theorem keptTo_split (infile : H5Table) (cfg : SelectionConfig) (s e : Nat)
    (h : s ≤ e) :
    keptTo infile cfg e =
      keptTo infile cfg s ++ (List.range' s (e - s)).filter (rowPass infile cfg) := by
  unfold keptTo
  rw [List.range_eq_range', List.range_eq_range', ← List.filter_append]
  congr 1
  have := range'_split 0 e s (by omega) h
  simpa using this

theorem list_eq_range_map_getD {α : Type} (l : List α) (d : α) :
    l = (List.range l.length).map (fun i => l.getD i d) := by
  apply List.ext_getElem
  · simp
  · intro i h1 h2
    simp only [List.getElem_map, List.getElem_range]
    rw [List.getD_eq_getElem l d (by simpa using h1)]

theorem indexOf?_some_of_contains (l : List String) (a : String)
    (h : l.contains a = true) : ∃ i, l.indexOf? a = some i ∧ i < l.length := by
  induction l with
  | nil => simp at h
  | cons x xs ih =>
    rw [List.indexOf?_cons]
    by_cases hx : x == a
    · exact ⟨0, by simp [hx], by simp⟩
    · simp only [List.contains_cons] at h
      rcases Bool.or_eq_true_iff.mp h with h' | h'
      · rw [BEq.comm] at hx; simp [hx] at h'
      · obtain ⟨i, hi, hlen⟩ := ih h'
        exact ⟨i + 1, by simp [hx, hi], by simp; omega⟩

theorem indexOf?_none_of_not_contains (l : List String) (a : String)
    (h : l.contains a = false) : l.indexOf? a = none := by
  rw [List.indexOf?_eq_none_iff]
  intro x hx hbeq
  have : l.contains a = true := by
    rw [List.contains_eq_any_beq]
    exact List.any_eq_true.mpr ⟨x, hx, by rwa [BEq.comm] at hbeq⟩
  rw [h] at this
  exact Bool.noConfusion this

theorem maskLoopH5_cons_ok (infile : H5Table) (s e : Nat) (g : SelGroup)
    (gs : List SelGroup) (mask m' : MaskArray)
    (h : maskStepH5 infile s e mask g = .ok m') :
    maskLoopH5 infile s e (g :: gs) mask = maskLoopH5 infile s e gs m' := by
  simp [maskLoopH5, h]

theorem maskLoopH5_cons_err (infile : H5Table) (s e : Nat) (g : SelGroup)
    (gs : List SelGroup) (mask : MaskArray) (err : Err)
    (h : maskStepH5 infile s e mask g = .error err) :
    maskLoopH5 infile s e (g :: gs) mask = .error err := by
  simp [maskLoopH5, h]

theorem maskStepH5_err (infile : H5Table) (s e : Nat) (mask : MaskArray)
    (g : SelGroup) (err : Err) (h : groupErr? infile g = some err)
    (hnr : err.isRankMarker = false) :
    maskStepH5 infile s e mask g = .error err := by
  match g with
  | [] => simp [groupErr?] at h; simp [maskStepH5, ← h]
  | (name, op, v) :: c :: tl =>
    simp [groupErr?] at h
    simp [maskStepH5, ← h]
  | [(name, op, v)] =>
    simp only [groupErr?] at h
    simp only [maskStepH5]
    norm_num at h ⊢
    cases hop : OPERATORS op with
    | none => rw [hop] at h; injection h with h; rw [← h]
    | some o =>
      rw [hop] at h
      cases hcol : lookupCol infile name with
      | none => rw [hcol] at h; injection h with h; rw [← h]
      | some d =>
        rw [hcol] at h
        cases d with
        | d1 xs => exact Option.noConfusion h
        | d2 dim rows =>
          injection h with h
          rw [← h] at hnr
          simp [Err.isRankMarker] at hnr
        | dOther dims nr =>
          injection h with h
          rw [← h] at hnr
          simp [Err.isRankMarker] at hnr

theorem groupErr?_none (infile : H5Table) (g : SelGroup)
    (h : groupErr? infile g = none) :
    ∃ name op v o xs, g = [(name, op, v)] ∧ OPERATORS op = some o ∧
      lookupCol infile name = some (.d1 xs) := by
  match g with
  | [] => simp [groupErr?] at h
  | (name, op, v) :: c :: tl => simp [groupErr?] at h
  | [(name, op, v)] =>
    simp only [groupErr?] at h
    norm_num at h
    cases hop : OPERATORS op with
    | none => rw [hop] at h; exact Option.noConfusion h
    | some o =>
      rw [hop] at h
      cases hcol : lookupCol infile name with
      | none => rw [hcol] at h; exact Option.noConfusion h
      | some d =>
        rw [hcol] at h
        cases d with
        | d1 xs => exact ⟨name, op, v, o, xs, rfl, hop, hcol⟩
        | d2 dim rows => exact Option.noConfusion h
        | dOther nd nr => exact Option.noConfusion h

theorem maskStepH5_ok (infile : H5Table) (n s e : Nat) (F : Nat → Bool)
    (name op : String) (v : Int) (o : Op) (xs : List Int)
    (hop : OPERATORS op = some o) (hcol : lookupCol infile name = some (.d1 xs))
    (hxs : xs.length = n) (hse : s ≤ e) (hen : e ≤ n) :
    maskStepH5 infile s e (.one ((List.range' s (e - s)).map F)) [(name, op, v)] =
      .ok (.one ((List.range' s (e - s)).map
        (fun r => F r && critPass infile r (name, op, v)))) := by
  simp only [maskStepH5, hop, hcol]
  norm_num
  simp only [selectionArray, npLogicalAndArr]
  rw [pySlice_eq_map xs 0 s e hse (by omega), List.map_map, npLogicalAnd_map]
  congr 2
  apply List.map_congr_left
  intro r _
  simp only [Function.comp]
  congr 1
  unfold critPass
  simp [hop, hcol]

theorem lookupCol_nrows (infile : H5Table) (n : Nat) (name : String)
    (hlen : tableLenOk infile n = true) (d : ColData)
    (h : lookupCol infile name = some d) : d.nrows = n := by
  unfold lookupCol at h
  cases hf : infile.find? (fun p => p.1 == name) with
  | none => rw [hf] at h; exact Option.noConfusion h
  | some p =>
    rw [hf] at h
    have hp : p ∈ infile := List.mem_of_find?_eq_some hf
    have := (List.all_eq_true.mp hlen) p hp
    simp only [Option.map_some'] at h
    cases h
    simpa using this

theorem maskLoopH5_err (infile : H5Table) (s e : Nat) (err : Err)
    (hnr : err.isRankMarker = false) :
    ∀ (gs : List SelGroup) (bits : List Bool),
      gs.findSome? (groupErr? infile) = some err →
      maskLoopH5 infile s e gs (.one bits) = .error err := by
  intro gs
  induction gs with
  | nil => intro bits h; simp at h
  | cons g gs ih =>
    intro bits h
    rw [List.findSome?_cons] at h
    cases hg : groupErr? infile g with
    | some err' =>
      rw [hg] at h
      injection h with h
      subst h
      exact maskLoopH5_cons_err infile s e g gs (.one bits) err'
        (maskStepH5_err infile s e (.one bits) g err' hg hnr)
    | none =>
      rw [hg] at h
      obtain ⟨name, op, v, o, xs, hgeq, hop, hcol⟩ := groupErr?_none infile g hg
      subst hgeq
      have hstep : maskStepH5 infile s e (.one bits) [(name, op, v)] =
          .ok (.one (npLogicalAnd bits ((pySlice xs s e).map (fun x => applyOp o x v)))) := by
        simp only [maskStepH5, hop, hcol]
        norm_num
        simp [selectionArray, npLogicalAndArr]
      rw [maskLoopH5_cons_ok infile s e _ gs (.one bits) _ hstep]
      exact ih _ h

theorem maskLoopH5_ok (infile : H5Table) (n s e : Nat)
    (hlen : tableLenOk infile n = true) (hse : s ≤ e) (hen : e ≤ n) :
    ∀ (gs : List SelGroup) (F : Nat → Bool),
      gs.findSome? (groupErr? infile) = none →
      maskLoopH5 infile s e gs (.one ((List.range' s (e - s)).map F)) =
        .ok (.one ((List.range' s (e - s)).map
          (fun r => F r && gs.all (fun g => g.all (critPass infile r))))) := by
  intro gs
  induction gs with
  | nil =>
    intro F _
    simp [maskLoopH5]
  | cons g gs ih =>
    intro F h
    rw [List.findSome?_cons] at h
    cases hg : groupErr? infile g with
    | some err' => rw [hg] at h; exact Option.noConfusion h
    | none =>
      rw [hg] at h
      obtain ⟨name, op, v, o, xs, hgeq, hop, hcol⟩ := groupErr?_none infile g hg
      subst hgeq
      have hxs : xs.length = n := by
        have := lookupCol_nrows infile n name hlen _ hcol
        simpa [ColData.nrows] using this
      rw [maskLoopH5_cons_ok infile s e _ gs _ _
        (maskStepH5_ok infile n s e F name op v o xs hop hcol hxs hse hen)]
      rw [ih _ h]
      congr 2
      apply List.map_congr_left
      intro r _
      simp [Bool.and_assoc]

theorem pyEnd_some (e n : Nat) (he : 1 ≤ e) (hen : e ≤ n) :
    pyEnd (some e) n = e := by
  match e, he with
  | (k + 1), _ =>
    simp only [pyEnd]
    omega

theorem create_mask_h5py_ok (infile : H5Table) (cfg : SelectionConfig)
    (n s e : Nat) (hsel : selectionErr? infile cfg = none)
    (hlen : tableLenOk infile n = true) (hse : s ≤ e) (he : 1 ≤ e)
    (hen : e ≤ n) :
    create_mask_h5py infile cfg n (some s) (some e) =
      .ok (.one ((List.range' s (e - s)).map (rowPass infile cfg))) := by
  unfold create_mask_h5py
  rw [show pyStart (some s) = s from rfl, pyEnd_some e n he hen,
    replicate_true_eq_map s (e - s),
    maskLoopH5_ok infile n s e hlen hse hen _ _ hsel]
  congr 1

theorem create_mask_h5py_err (infile : H5Table) (cfg : SelectionConfig)
    (n : Nat) (s? e? : Option Nat) (err : Err)
    (hsel : selectionErr? infile cfg = some err)
    (hnr : err.isRankMarker = false) :
    create_mask_h5py infile cfg n s? e? = .error err := by
  unfold create_mask_h5py
  exact maskLoopH5_err infile _ _ err hnr _ _ hsel

/-! Characterisation of the column loops of `apply_cuts_h5py_chunked`. -/

theorem columnsErr?_eq_none_iff (infile : H5Table) :
    columnsErr? infile = none ↔ dimsOk infile = true := by
  induction infile with
  | nil => simp [columnsErr?, dimsOk]
  | cons p rest ih =>
    rw [columnsErr?, List.findSome?_cons] at *
    rw [dimsOk, List.all_cons]
    cases hd : p.2 with
    | d1 xs => simpa [columnsErr?, dimsOk] using ih
    | d2 dim rows =>
      by_cases hdim : 2 < dim
      · simp [hdim, show ¬(dim ≤ 2) by omega]
      · simpa [hdim, show dim ≤ 2 by omega, columnsErr?, dimsOk] using ih
    | dOther nd nr => simpa [columnsErr?, dimsOk] using ih

theorem createColumns_err (s e : Nat) (bits : List Bool) (err : Err) :
    ∀ (cols : List (String × ColData)), columnsErr? cols = some err →
      createColumns s e (.one bits) cols = .error err := by
  intro cols
  induction cols with
  | nil => intro h; simp [columnsErr?] at h
  | cons p rest ih =>
    intro h
    rw [columnsErr?, List.findSome?_cons] at h
    obtain ⟨name, data⟩ := p
    cases hd : data with
    | d1 xs =>
      rw [hd] at h
      simp only [createColumns]
      rw [ih (by rw [columnsErr?]; exact h)]
      rfl
    | d2 dim rows =>
      rw [hd] at h
      by_cases hdim : 2 < dim
      · simp only [hdim, if_pos] at h
        injection h with h
        subst h
        simp [createColumns, hdim]
      · simp only [hdim, if_neg, if_false] at h
        simp only [createColumns, if_neg hdim]
        rw [ih (by rw [columnsErr?]; exact h)]
        rfl
    | dOther nd nr =>
      rw [hd] at h
      simp only [createColumns]
      exact ih (by rw [columnsErr?]; exact h)

theorem createColumns_ok (n e : Nat) (f : Nat → Bool) :
    ∀ (cols : List (String × ColData)), supportedRanks cols = true →
      dimsOk cols = true → (∀ p ∈ cols, (p.2).nrows = n) → e ≤ n →
      createColumns 0 e (.one ((List.range' 0 e).map f)) cols =
        .ok (cols.map (fun p =>
          (p.1, specColD p.2 ((List.range' 0 e).filter f)))) := by
  intro cols
  induction cols with
  | nil => intro _ _ _ _; simp [createColumns]
  | cons p rest ih =>
    intro hsupp hdims hlen hen
    rw [supportedRanks, List.all_cons] at hsupp
    rw [dimsOk, List.all_cons] at hdims
    obtain ⟨name, data⟩ := p
    have hlenp : data.nrows = n := hlen _ (List.mem_cons_self _ _)
    have hrest := fun q hq => hlen q (List.mem_cons_of_mem _ hq)
    have ihr := ih (Bool.and_elim_right hsupp) (Bool.and_elim_right hdims)
      hrest hen
    cases hd : data with
    | d1 xs =>
      have hxs : xs.length = n := by rw [hd] at hlenp; simpa [ColData.nrows] using hlenp
      simp only [createColumns, ihr, Except.map_ok]
      rw [show (List.range' 0 e).map f =
        (List.range' 0 (e - 0)).map f by norm_num]
      rw [pySlice_eq_map xs 0 0 e (by omega) (by omega)]
      rw [applyMask_map]
      simp only [specColD]
      rfl
    | d2 dim rows =>
      have hrows : rows.length = n := by rw [hd] at hlenp; simpa [ColData.nrows] using hlenp
      have hdim : ¬(2 < dim) := by
        rw [hd] at hdims
        have := Bool.and_elim_left hdims
        simp at this
        omega
      simp only [createColumns, if_neg hdim, ihr, Except.map_ok]
      rw [show (List.range' 0 e).map f =
        (List.range' 0 (e - 0)).map f by norm_num]
      rw [pySlice_eq_map rows ([] : List Int) 0 e (by omega) (by omega)]
      rw [applyMask_map]
      simp only [specColD]
      rfl
    | dOther nd nr =>
      rw [hd] at hsupp
      have := Bool.and_elim_left hsupp
      simp at this

theorem nodup_keyval (l : H5Table) (name : String) (data : ColData)
    (hnd : (l.map Prod.fst).Nodup) (hmem : (name, data) ∈ l) :
    ∀ p ∈ l, p.1 = name → p.2 = data := by
  induction l with
  | nil => intro p hp; simp at hp
  | cons q rest ih =>
    rw [List.map_cons, List.nodup_cons] at hnd
    intro p hp hpn
    rcases List.mem_cons.mp hmem with hq | hq
    · rcases List.mem_cons.mp hp with hp' | hp'
      · rw [hp', ← hq]
      · exfalso
        apply hnd.1
        rw [← hq]
        exact List.mem_map.mpr ⟨p, hp', hpn⟩
    · rcases List.mem_cons.mp hp with hp' | hp'
      · exfalso
        apply hnd.1
        exact List.mem_map.mpr ⟨(name, data), hq, by rw [← hp', hpn]⟩
      · exact ih hnd.2 hq p hp' hpn

theorem lookupOut_mixed (name : String) (data : ColData) (F : String → List Nat) :
    ∀ (pre rest : H5Table),
      (((pre ++ (name, data) :: rest).map Prod.fst)).Nodup →
      lookupOut (mixedOut (pre ++ (name, data) :: rest) F) name =
        some (specColD data (F name)) := by
  intro pre
  induction pre with
  | nil =>
    intro rest _
    simp [mixedOut, lookupOut, List.find?_cons]
  | cons q pre' ih =>
    intro rest hnd
    rw [List.cons_append, List.map_cons, List.nodup_cons] at hnd
    have hq : (q.1 == name) = false := by
      rw [beq_eq_false_iff_ne]
      intro hqn
      apply hnd.1
      rw [hqn]
      exact List.mem_map.mpr
        ⟨(name, data), List.mem_append_right _ (List.mem_cons_self _ _), rfl⟩
    have hcons : mixedOut (q :: (pre' ++ (name, data) :: rest)) F =
        (q.1, specColD q.2 (F q.1)) :: mixedOut (pre' ++ (name, data) :: rest) F := rfl
    rw [List.cons_append, hcons]
    have hrec := ih rest hnd.2
    simp only [lookupOut, List.find?_cons] at hrec ⊢
    simp only [hq]
    exact hrec

theorem updateOut_mixed (l : H5Table) (name : String) (data : ColData)
    (F : String → List Nat) (ke : List Nat)
    (hnd : (l.map Prod.fst).Nodup) (hmem : (name, data) ∈ l) :
    updateOut (mixedOut l F) name (specColD data ke) =
      mixedOut l (fun nm => if nm == name then ke else F nm) := by
  unfold updateOut mixedOut
  rw [List.map_map]
  apply List.map_congr_left
  intro p hp
  simp only [Function.comp]
  by_cases hpn : p.1 == name
  · have hdata : p.2 = data :=
      nodup_keyval l name data hnd hmem p hp (by simpa using hpn)
    simp [hpn, hdata]
  · simp [hpn]

theorem mixedOut_congr (l : H5Table) (F G : String → List Nat)
    (h : ∀ p ∈ l, F p.1 = G p.1) : mixedOut l F = mixedOut l G := by
  unfold mixedOut
  apply List.map_congr_left
  intro p hp
  rw [h p hp]

theorem appendColumns_aux (n s e : Nat) (f : Nat → Bool) (kp : List Nat)
    (hse : s ≤ e) (hen : e ≤ n) :
    ∀ (post pre infile : H5Table) (Fcur : String → List Nat),
      infile = pre ++ post →
      (infile.map Prod.fst).Nodup → supportedRanks infile = true →
      (∀ p ∈ infile, (p.2).nrows = n) →
      (∀ p ∈ post, Fcur p.1 = kp) →
      appendColumns s e (.one ((List.range' s (e - s)).map f)) post
        (mixedOut infile Fcur) =
      .ok (mixedOut infile (fun nm =>
        if nm ∈ post.map Prod.fst then
          kp ++ (List.range' s (e - s)).filter f else Fcur nm)) := by
  intro post
  induction post with
  | nil =>
    intro pre infile Fcur heq hnd hsupp hlen hcur
    simp only [appendColumns, List.map_nil]
    refine congrArg Except.ok (mixedOut_congr _ _ _ ?_).symm
    intro p hp
    simp only [List.not_mem_nil, if_false]
  | cons pd rest ih =>
    intro pre infile Fcur heq hnd hsupp hlen hcur
    obtain ⟨name, data⟩ := pd
    subst heq
    have hmem : (name, data) ∈ pre ++ (name, data) :: rest :=
      List.mem_append_right _ (List.mem_cons_self _ _)
    have hndmid : (name :: rest.map Prod.fst).Nodup := by
      have hnd' : (pre.map Prod.fst ++ name :: rest.map Prod.fst).Nodup := by
        simpa using hnd
      exact hnd'.of_append_right
    have hnamerest : name ∉ rest.map Prod.fst := (List.nodup_cons.mp hndmid).1
    have hcurname : Fcur name = kp := hcur (name, data) (List.mem_cons_self _ _)
    have hlookup := lookupOut_mixed name data Fcur pre rest hnd
    rw [hcurname] at hlookup
    have hdlen : data.nrows = n := hlen _ hmem
    have hassoc : pre ++ (name, data) :: rest = (pre ++ [(name, data)]) ++ rest := by
      rw [List.append_assoc]
      rfl
    have hnext : ∀ p ∈ rest,
        (fun nm => if nm == name then
          kp ++ (List.range' s (e - s)).filter f else Fcur nm) p.1 = kp := by
      intro p hp
      have hne : ¬(p.1 == name) = true := by
        simp only [beq_iff_eq]
        intro hb
        exact hnamerest (hb ▸ List.mem_map.mpr ⟨p, hp, rfl⟩)
      simp only [Bool.not_eq_true] at hne
      simp only [hne]
      exact hcur p (List.mem_cons_of_mem _ hp)
    have hfinal : ∀ p ∈ pre ++ (name, data) :: rest,
        (fun nm => if nm ∈ rest.map Prod.fst then
            kp ++ (List.range' s (e - s)).filter f
          else if nm == name then
            kp ++ (List.range' s (e - s)).filter f else Fcur nm) p.1 =
        (fun nm => if nm ∈ ((name, data) :: rest).map Prod.fst then
            kp ++ (List.range' s (e - s)).filter f else Fcur nm) p.1 := by
      intro p hp
      simp only [List.map_cons, List.mem_cons]
      by_cases hr : p.1 ∈ rest.map Prod.fst
      · simp [hr]
      · by_cases hb : p.1 = name
        · simp [hr, hb]
        · simp [hr, hb]
    cases data with
    | d1 xs =>
      have hxs : xs.length = n := by simpa [ColData.nrows] using hdlen
      simp only [appendColumns, hlookup, specColD]
      rw [pySlice_eq_map xs 0 s e hse (by omega), applyMask_map,
        ← List.map_append]
      rw [show OutCol.o1 ((kp ++ (List.range' s (e - s)).filter f).map
          (fun r => xs.getD r 0)) =
        specColD (ColData.d1 xs) (kp ++ (List.range' s (e - s)).filter f)
        from rfl]
      rw [updateOut_mixed (pre ++ (name, ColData.d1 xs) :: rest) name
        (ColData.d1 xs) Fcur _ hnd hmem]
      rw [ih (pre ++ [(name, ColData.d1 xs)]) _ _ hassoc hnd hsupp hlen hnext]
      congr 1
      exact mixedOut_congr _ _ _ hfinal
    | d2 dim rows =>
      have hrows : rows.length = n := by simpa [ColData.nrows] using hdlen
      simp only [appendColumns, hlookup, specColD, beq_self_eq_true, if_true]
      rw [pySlice_eq_map rows ([] : List Int) s e hse (by omega), applyMask_map,
        ← List.map_append]
      rw [show OutCol.o2 dim ((kp ++ (List.range' s (e - s)).filter f).map
          (fun r => rows.getD r [])) =
        specColD (ColData.d2 dim rows) (kp ++ (List.range' s (e - s)).filter f)
        from rfl]
      rw [updateOut_mixed (pre ++ (name, ColData.d2 dim rows) :: rest) name
        (ColData.d2 dim rows) Fcur _ hnd hmem]
      rw [ih (pre ++ [(name, ColData.d2 dim rows)]) _ _ hassoc hnd hsupp hlen hnext]
      congr 1
      exact mixedOut_congr _ _ _ hfinal
    | dOther nd nr =>
      exfalso
      have := (List.all_eq_true.mp hsupp) _ hmem
      simp at this

theorem appendColumns_main (infile : H5Table) (cfg : SelectionConfig)
    (n s e : Nat) (hnd : (infile.map Prod.fst).Nodup)
    (hsupp : supportedRanks infile = true)
    (hlen : ∀ p ∈ infile, (p.2).nrows = n) (hse : s ≤ e) (hen : e ≤ n) :
    appendColumns s e (.one ((List.range' s (e - s)).map (rowPass infile cfg)))
      infile (specOut infile cfg s) = .ok (specOut infile cfg e) := by
  have haux := appendColumns_aux n s e (rowPass infile cfg)
    (keptTo infile cfg s) hse hen infile [] infile
    (fun _ => keptTo infile cfg s) rfl hnd hsupp hlen (fun p _ => rfl)
  rw [show specOut infile cfg s =
    mixedOut infile (fun _ => keptTo infile cfg s) from rfl, haux]
  refine congrArg Except.ok (mixedOut_congr _ _ _ ?_)
  intro p hp
  have hmem : p.1 ∈ infile.map Prod.fst := List.mem_map.mpr ⟨p, hp, rfl⟩
  simp only [hmem, if_true]
  exact (keptTo_split infile cfg s e hse).symm

theorem createColumns_main (infile : H5Table) (cfg : SelectionConfig)
    (n e : Nat) (hsupp : supportedRanks infile = true)
    (hdims : dimsOk infile = true) (hlen : ∀ p ∈ infile, (p.2).nrows = n)
    (hen : e ≤ n) :
    createColumns 0 e (.one ((List.range' 0 e).map (rowPass infile cfg)))
      infile = .ok (specOut infile cfg e) := by
  rw [createColumns_ok n e (rowPass infile cfg) infile hsupp hdims hlen hen]
  refine congrArg Except.ok ?_
  unfold specOut mixedOut keptTo
  apply List.map_congr_left
  intro p hp
  rw [List.range_eq_range']

/-! Characterisation of the chunk loop and of `apply_cuts_h5py_chunked`. -/

theorem runChunks_zero (infile : H5Table) (cfg : SelectionConfig)
    (n c chunk : Nat) (out : OutTable) :
    runChunks infile cfg n c chunk 0 out = .ok out := rfl

theorem ceil_div_mul_ge (nn c : Nat) (hc : 1 ≤ c) :
    nn ≤ ((nn + c - 1) / c) * c := by
  have h := (Nat.div_lt_iff_lt_mul hc).mp
    (Nat.lt_succ_self ((nn + c - 1) / c))
  rw [Nat.succ_mul] at h
  omega

theorem ceil_div_chunk_lt (nn c k : Nat) (hc : 1 ≤ c)
    (hk : k < (nn + c - 1) / c) : k * c < nn := by
  have h := (Nat.le_div_iff_mul_le hc).mp hk
  rw [Nat.succ_mul] at h
  have h2 := Nat.div_le_self (nn + c - 1) c
  omega

theorem ceil_div_pos (nn c : Nat) (hc : 1 ≤ c) (hn : 1 ≤ nn) :
    1 ≤ (nn + c - 1) / c := by
  rw [Nat.le_div_iff_mul_le hc]
  omega

theorem runChunks_inv (infile : H5Table) (cfg : SelectionConfig)
    (n c : Nat) (hsel : selectionErr? infile cfg = none)
    (hnd : (infile.map Prod.fst).Nodup)
    (hsupp : supportedRanks infile = true) (hdims : dimsOk infile = true)
    (hlenall : tableLenOk infile n = true)
    (hlen : ∀ p ∈ infile, (p.2).nrows = n)
    (hc : 1 ≤ c) (hn : 1 ≤ n) :
    ∀ (r chunk : Nat), 1 ≤ chunk →
      (0 < r → (chunk + r - 1) * c < n) → n ≤ (chunk + r) * c →
      runChunks infile cfg n c chunk r
        (specOut infile cfg (min n (chunk * c))) =
      .ok (specOut infile cfg n) := by
  intro r
  induction r with
  | zero =>
    intro chunk _ _ hub
    rw [runChunks_zero]
    simp only [Nat.add_zero] at hub
    congr 2
    omega
  | succ r ih =>
    intro chunk hchunk1 hlast hub
    have hcur : chunk * c < n := by
      have h1 : chunk ≤ chunk + (r + 1) - 1 := by omega
      have h2 := hlast (by omega)
      have h3 : chunk * c ≤ (chunk + (r + 1) - 1) * c :=
        Nat.mul_le_mul_right c h1
      omega
    have hmin : min n (chunk * c) = chunk * c := by omega
    have he1 : 1 ≤ min n ((chunk + 1) * c) := by
      have : 1 ≤ (chunk + 1) * c := by
        have := Nat.mul_le_mul (by omega : 1 ≤ chunk + 1) hc
        omega
      omega
    have hse : chunk * c ≤ min n ((chunk + 1) * c) := by
      have : chunk * c ≤ (chunk + 1) * c := Nat.mul_le_mul_right c (by omega)
      omega
    have hen : min n ((chunk + 1) * c) ≤ n := by omega
    have hmask := create_mask_h5py_ok infile cfg n (chunk * c)
      (min n ((chunk + 1) * c)) hsel hlenall hse he1 hen
    have hchunkne : (chunk == 0) = false := by
      simp only [beq_eq_false_iff_ne]
      omega
    have happend := appendColumns_main infile cfg n (chunk * c)
      (min n ((chunk + 1) * c)) hnd hsupp hlen hse hen
    rw [hmin]
    simp only [runChunks, hmask, hchunkne, if_false, happend]
    have hnext := ih (chunk + 1) (by omega)
      (by intro _
          have heq : chunk + 1 + r - 1 = chunk + (r + 1) - 1 := by omega
          rw [heq]
          exact hlast (by omega))
      (by have heq2 : chunk + 1 + r = chunk + (r + 1) := by omega
          rw [heq2]
          exact hub)
    exact hnext

theorem tableLenOk_forall (infile : H5Table) (n : Nat)
    (h : tableLenOk infile n = true) : ∀ p ∈ infile, (p.2).nrows = n := by
  intro p hp
  have := List.all_eq_true.mp h p hp
  simpa using this

theorem apply_cuts_chunked_empty (infile : H5Table) (cfg : SelectionConfig)
    (c : Nat) (hn0 : get_number_of_rows_in_table infile = 0) :
    apply_cuts_h5py_chunked infile cfg c = .ok [] := by
  unfold apply_cuts_h5py_chunked
  rw [hn0]
  have hz : (0 + c - 1) / c = 0 := by
    cases c with
    | zero => rfl
    | succ k => exact Nat.div_eq_of_lt (by omega)
  rw [hz]
  exact runChunks_zero infile cfg 0 c 0 []

theorem apply_cuts_chunked_ok (infile : H5Table) (cfg : SelectionConfig)
    (c : Nat) (hsel : selectionErr? infile cfg = none)
    (hnd : (infile.map Prod.fst).Nodup)
    (hsupp : supportedRanks infile = true) (hdims : dimsOk infile = true)
    (hlenall : tableLenOk infile (get_number_of_rows_in_table infile) = true)
    (hc : 1 ≤ c) (hn : 1 ≤ get_number_of_rows_in_table infile) :
    apply_cuts_h5py_chunked infile cfg c =
      .ok (specOut infile cfg (get_number_of_rows_in_table infile)) := by
  unfold apply_cuts_h5py_chunked
  have hlen := tableLenOk_forall infile _ hlenall
  obtain ⟨r0, hr0⟩ : ∃ r0,
      (get_number_of_rows_in_table infile + c - 1) / c = r0 + 1 := by
    have := ceil_div_pos (get_number_of_rows_in_table infile) c hc hn
    exact ⟨(get_number_of_rows_in_table infile + c - 1) / c - 1, by omega⟩
  rw [hr0]
  simp only [runChunks, Nat.zero_mul, Nat.zero_add, Nat.one_mul,
    beq_self_eq_true, if_true]
  have hmask := create_mask_h5py_ok infile cfg
    (get_number_of_rows_in_table infile) 0
    (min (get_number_of_rows_in_table infile) c) hsel hlenall
    (by omega) (by omega) (by omega)
  simp only [Nat.sub_zero] at hmask
  simp only [hmask]
  have hcreate := createColumns_main infile cfg
    (get_number_of_rows_in_table infile)
    (min (get_number_of_rows_in_table infile) c) hsupp hdims hlen (by omega)
  simp only [hcreate]
  have hinv := runChunks_inv infile cfg (get_number_of_rows_in_table infile) c
    hsel hnd hsupp hdims hlenall hlen hc hn r0 1 (by omega)
    (by intro hr
        have heq : 1 + r0 - 1 = r0 := by omega
        rw [heq]
        exact ceil_div_chunk_lt _ c r0 hc (by omega))
    (by have heq : (1 + r0) * c = (r0 + 1) * c := by ring
        rw [heq, ← hr0]
        exact ceil_div_mul_ge _ c hc)
  simp only [Nat.one_mul] at hinv
  exact hinv

theorem apply_cuts_chunked_err_sel (infile : H5Table) (cfg : SelectionConfig)
    (c : Nat) (err : Err) (hsel : selectionErr? infile cfg = some err)
    (hnr : err.isRankMarker = false)
    (hc : 1 ≤ c) (hn : 1 ≤ get_number_of_rows_in_table infile) :
    apply_cuts_h5py_chunked infile cfg c = .error err := by
  unfold apply_cuts_h5py_chunked
  obtain ⟨r0, hr0⟩ : ∃ r0,
      (get_number_of_rows_in_table infile + c - 1) / c = r0 + 1 := by
    have := ceil_div_pos (get_number_of_rows_in_table infile) c hc hn
    exact ⟨(get_number_of_rows_in_table infile + c - 1) / c - 1, by omega⟩
  rw [hr0]
  simp only [runChunks, Nat.zero_mul, Nat.zero_add, Nat.one_mul,
    beq_self_eq_true, if_true]
  have hmask := create_mask_h5py_err infile cfg
    (get_number_of_rows_in_table infile) (some 0)
    (some (min (get_number_of_rows_in_table infile) c)) err hsel hnr
  simp only [hmask]

theorem apply_cuts_chunked_err_cols (infile : H5Table) (cfg : SelectionConfig)
    (c : Nat) (err : Err) (hsel : selectionErr? infile cfg = none)
    (hlenall : tableLenOk infile (get_number_of_rows_in_table infile) = true)
    (hcols : columnsErr? infile = some err)
    (hc : 1 ≤ c) (hn : 1 ≤ get_number_of_rows_in_table infile) :
    apply_cuts_h5py_chunked infile cfg c = .error err := by
  unfold apply_cuts_h5py_chunked
  obtain ⟨r0, hr0⟩ : ∃ r0,
      (get_number_of_rows_in_table infile + c - 1) / c = r0 + 1 := by
    have := ceil_div_pos (get_number_of_rows_in_table infile) c hc hn
    exact ⟨(get_number_of_rows_in_table infile + c - 1) / c - 1, by omega⟩
  rw [hr0]
  simp only [runChunks, Nat.zero_mul, Nat.zero_add, Nat.one_mul,
    beq_self_eq_true, if_true]
  have hmask := create_mask_h5py_ok infile cfg
    (get_number_of_rows_in_table infile) 0
    (min (get_number_of_rows_in_table infile) c) hsel hlenall
    (by omega) (by omega) (by omega)
  simp only [Nat.sub_zero] at hmask
  simp only [hmask]
  have hcreate := createColumns_err 0
    (min (get_number_of_rows_in_table infile) c)
    ((List.range' 0 (min (get_number_of_rows_in_table infile) c)).map
      (rowPass infile cfg)) err infile hcols
  simp only [hcreate]

theorem findSome?_append_none {α β : Type} (f : α → Option β) :
    ∀ (pre l : List α), (∀ g ∈ pre, f g = none) →
      (pre ++ l).findSome? f = l.findSome? f := by
  intro pre
  induction pre with
  | nil => intro l _; rfl
  | cons q pre' ih =>
    intro l hpre
    rw [List.cons_append, List.findSome?_cons, hpre q (List.mem_cons_self _ _)]
    exact ih l (fun g hg => hpre g (List.mem_cons_of_mem _ hg))

/-- A selection criterion naming a rank-2 column fails with
chunk-length-dependent exceptions, which is why `c1_chunksize_invariance`
excludes such selections through `chunkIndependentScan`: on a 3-row table
with a `(3, 2)` column, chunk size 3 makes `np.logical_and` fail to
broadcast the `(3,)` mask with the `(3, 2)` selection (`ValueError`),
while chunk size 2 broadcasts `(2,)` with `(2, 2)` and the resulting
rank-2 mask then fails at the boolean-indexed column write
(`IndexError`). -/
theorem rank2_selection_chunk_dependent_failure :
    apply_cuts_h5py_chunked
        [("m", ColData.d2 2 [[1, 2], [3, 4], [5, 6]])]
        (SelectionConfig.groups [[("m", ("<", 10))]]) 3 =
      .error (.broadcastError [3] [3, 2]) ∧
    apply_cuts_h5py_chunked
        [("m", ColData.d2 2 [[1, 2], [3, 4], [5, 6]])]
        (SelectionConfig.groups [[("m", ("<", 10))]]) 2 =
      .error .maskIndexError := by
  constructor <;> rfl

/-- C1.  The claim as stated is false: with a rank-3 column alongside a
rank-1 column, a one-chunk run succeeds (the column is skipped with a
warning) while a two-chunk run raises `KeyError` on the second chunk,
because the skipped column's output dataset was never created but is
looked up before the rank check. -/
theorem c1_chunksize_dependent_counterexample :
    apply_cuts_h5py_chunked
        [("c3", ColData.dOther [4, 4] 2), ("x", ColData.d1 [1, 2])]
        (SelectionConfig.groups []) 2 =
      .ok [("x", OutCol.o1 [1, 2])] ∧
    apply_cuts_h5py_chunked
        [("c3", ColData.dOther [4, 4] 2), ("x", ColData.d1 [1, 2])]
        (SelectionConfig.groups []) 1 =
      .error (.keyError "c3") := by
  constructor <;> rfl

/-- C1 (amended).  For every input table whose columns all have rank 1
or rank 2 and share the table's row count, and for every selection
configuration whose first compile problem — if any — is independent of
the chunk bounds (a malformed group, an unknown operator or a missing
column; not a criterion addressing a rank-2 column, whose numpy failure
differs with the chunk length), runs with any two positive chunk sizes
return identical results (the same output table, or the same
exception). -/
theorem c1_chunksize_invariance (infile : H5Table) (cfg : SelectionConfig)
    (c1 c2 : Nat) (hnd : (infile.map Prod.fst).Nodup)
    (hsupp : supportedRanks infile = true)
    (hlenall : tableLenOk infile (get_number_of_rows_in_table infile) = true)
    (hcis : chunkIndependentScan infile cfg = true)
    (hc1 : 1 ≤ c1) (hc2 : 1 ≤ c2) :
    apply_cuts_h5py_chunked infile cfg c1 =
      apply_cuts_h5py_chunked infile cfg c2 := by
  by_cases hn : get_number_of_rows_in_table infile = 0
  · rw [apply_cuts_chunked_empty infile cfg c1 hn,
      apply_cuts_chunked_empty infile cfg c2 hn]
  · have hn1 : 1 ≤ get_number_of_rows_in_table infile := by omega
    cases hsel : selectionErr? infile cfg with
    | some err =>
      have hnr : err.isRankMarker = false := by
        unfold chunkIndependentScan at hcis
        rw [hsel] at hcis
        simpa using hcis
      rw [apply_cuts_chunked_err_sel infile cfg c1 err hsel hnr hc1 hn1,
        apply_cuts_chunked_err_sel infile cfg c2 err hsel hnr hc2 hn1]
    | none =>
      cases hcols : columnsErr? infile with
      | some err =>
        rw [apply_cuts_chunked_err_cols infile cfg c1 err hsel hlenall hcols hc1 hn1,
          apply_cuts_chunked_err_cols infile cfg c2 err hsel hlenall hcols hc2 hn1]
      | none =>
        have hdims : dimsOk infile = true :=
          (columnsErr?_eq_none_iff infile).mp hcols
        rw [apply_cuts_chunked_ok infile cfg c1 hsel hnd hsupp hdims hlenall hc1 hn1,
          apply_cuts_chunked_ok infile cfg c2 hsel hnd hsupp hdims hlenall hc2 hn1]

/-- C1 witness: the amended invariance at a concrete table, selection and
chunk sizes 1 and 3. -/
theorem c1_chunksize_invariance_witness :
    ((([("x", ColData.d1 [1, 2, 3]), ("y", ColData.d1 [5, 15, 25])] :
        H5Table).map Prod.fst).Nodup ∧
      supportedRanks [("x", ColData.d1 [1, 2, 3]), ("y", ColData.d1 [5, 15, 25])] = true ∧
      tableLenOk [("x", ColData.d1 [1, 2, 3]), ("y", ColData.d1 [5, 15, 25])]
        (get_number_of_rows_in_table
          [("x", ColData.d1 [1, 2, 3]), ("y", ColData.d1 [5, 15, 25])]) = true ∧
      chunkIndependentScan
        [("x", ColData.d1 [1, 2, 3]), ("y", ColData.d1 [5, 15, 25])]
        (SelectionConfig.groups [[("x", (">", 1))]]) = true) ∧
    apply_cuts_h5py_chunked [("x", ColData.d1 [1, 2, 3]), ("y", ColData.d1 [5, 15, 25])]
        (SelectionConfig.groups [[("x", (">", 1))]]) 1 =
      apply_cuts_h5py_chunked [("x", ColData.d1 [1, 2, 3]), ("y", ColData.d1 [5, 15, 25])]
        (SelectionConfig.groups [[("x", (">", 1))]]) 3 :=
  ⟨⟨by decide, by decide, by decide, by decide⟩,
    c1_chunksize_invariance _ _ 1 3 (by decide) (by decide) (by decide)
      (by decide) (by decide) (by decide)⟩

/-- C4.  The claim as stated is false for a zero-row table: with zero
rows there are zero chunks, the column loop never runs, and the output
has no columns at all, so the output column set differs from the
input's. -/
theorem c4_schema_counterexample :
    apply_cuts_h5py_chunked [("x", ColData.d1 [])]
        (SelectionConfig.groups []) 1 = .ok [] ∧
    (([] : OutTable).map (fun q => (q.1, q.2.shape)) ≠
      ([("x", ColData.d1 [])] : H5Table).map (fun p => (p.1, p.2.shape))) := by
  constructor
  · rfl
  · decide

/-- C4 (amended).  For every input table with at least one row whose
columns are all rank 1 or rank 2 with second axis at most 2 and share
the row count, and every selection that compiles (also one passing zero
rows), the output holds exactly the input's columns, in order, with
identical name and shape (rank, and second-axis length for rank 2);
only the row count changes. -/
theorem c4_schema_preservation (infile : H5Table) (cfg : SelectionConfig)
    (c : Nat) (hsel : selectionErr? infile cfg = none)
    (hnd : (infile.map Prod.fst).Nodup)
    (hsupp : supportedRanks infile = true) (hdims : dimsOk infile = true)
    (hlenall : tableLenOk infile (get_number_of_rows_in_table infile) = true)
    (hc : 1 ≤ c) (hn : 1 ≤ get_number_of_rows_in_table infile) :
    ∃ out, apply_cuts_h5py_chunked infile cfg c = .ok out ∧
      out.map (fun q => (q.1, q.2.shape)) =
        infile.map (fun p => (p.1, p.2.shape)) := by
  refine ⟨specOut infile cfg (get_number_of_rows_in_table infile),
    apply_cuts_chunked_ok infile cfg c hsel hnd hsupp hdims hlenall hc hn, ?_⟩
  unfold specOut mixedOut
  rw [List.map_map]
  apply List.map_congr_left
  intro p hp
  simp only [Function.comp]
  cases hd : p.2 with
  | d1 xs => simp [specColD, ColData.shape, OutCol.shape]
  | d2 dim rows => simp [specColD, ColData.shape, OutCol.shape]
  | dOther nd nr =>
    exfalso
    have := (List.all_eq_true.mp hsupp) p hp
    rw [hd] at this
    simp at this

/-- C4 witness: schema preservation at a concrete table whose selection
passes zero rows. -/
theorem c4_schema_preservation_witness :
    (selectionErr? [("x", ColData.d1 [1, 2]), ("m", ColData.d2 2 [[1, 2], [3, 4]])]
        (SelectionConfig.groups [[("x", ("<", 0))]]) = none ∧
      (([("x", ColData.d1 [1, 2]), ("m", ColData.d2 2 [[1, 2], [3, 4]])] :
        H5Table).map Prod.fst).Nodup ∧
      supportedRanks [("x", ColData.d1 [1, 2]), ("m", ColData.d2 2 [[1, 2], [3, 4]])] = true ∧
      dimsOk [("x", ColData.d1 [1, 2]), ("m", ColData.d2 2 [[1, 2], [3, 4]])] = true ∧
      tableLenOk [("x", ColData.d1 [1, 2]), ("m", ColData.d2 2 [[1, 2], [3, 4]])]
        (get_number_of_rows_in_table
          [("x", ColData.d1 [1, 2]), ("m", ColData.d2 2 [[1, 2], [3, 4]])]) = true) ∧
    ∃ out, apply_cuts_h5py_chunked
        [("x", ColData.d1 [1, 2]), ("m", ColData.d2 2 [[1, 2], [3, 4]])]
        (SelectionConfig.groups [[("x", ("<", 0))]]) 1 = .ok out ∧
      out.map (fun q => (q.1, q.2.shape)) =
        ([("x", ColData.d1 [1, 2]), ("m", ColData.d2 2 [[1, 2], [3, 4]])] :
          H5Table).map (fun p => (p.1, p.2.shape)) :=
  ⟨⟨by decide, by decide, by decide, by decide, by decide⟩,
    c4_schema_preservation _ _ 1 (by decide) (by decide) (by decide) (by decide)
      (by decide) (by decide) (by decide)⟩

/-- C5.  The non-fatal skip of an unsupported-rank column only works
when the whole table fits in one chunk: a rank-3 column beside a rank-1
column is skipped with a warning on chunk 0, but on every later chunk
the code reads `group[name].shape[0]` before the rank check, and the
never-created dataset raises `KeyError` — contradicting the code's own
skip-and-warn intent (the warning in the later-chunk branch is
unreachable for skipped columns). -/
theorem c5_rank3_multichunk_keyerror :
    apply_cuts_h5py_chunked
        [("c3", ColData.dOther [4, 4] 2), ("x", ColData.d1 [1, 2])]
        (SelectionConfig.groups []) 5 =
      .ok [("x", OutCol.o1 [1, 2])] ∧
    apply_cuts_h5py_chunked
        [("c3", ColData.dOther [4, 4] 2), ("x", ColData.d1 [1, 2])]
        (SelectionConfig.groups []) 1 =
      .error (.keyError "c3") := by
  constructor <;> rfl

/-- C8.  The claim as stated is false: a rank-2 column with second axis
1 (which differs from 2) is created successfully, because h5py only
refuses `maxshape=(None, 2)` when the data shape exceeds it. -/
theorem c8_dim1_succeeds_counterexample :
    apply_cuts_h5py_chunked [("a", ColData.d2 1 [[5]])]
        (SelectionConfig.groups []) 1 = .ok [("a", OutCol.o2 1 [[5]])] := by
  rfl

/-- C8 (amended).  For every nonempty well-formed table of rank-1 and
rank-2 columns and compiling selection, the chunked copy succeeds if and
only if every rank-2 column's second axis is at most 2; a second axis
greater than 2 makes the first-chunk `create_dataset` with
`maxshape=(None, 2)` fail. -/
theorem c8_rank2_success_iff_dims (infile : H5Table) (cfg : SelectionConfig)
    (c : Nat) (hsel : selectionErr? infile cfg = none)
    (hnd : (infile.map Prod.fst).Nodup)
    (hsupp : supportedRanks infile = true)
    (hlenall : tableLenOk infile (get_number_of_rows_in_table infile) = true)
    (hc : 1 ≤ c) (hn : 1 ≤ get_number_of_rows_in_table infile) :
    (∃ out, apply_cuts_h5py_chunked infile cfg c = .ok out) ↔
      dimsOk infile = true := by
  constructor
  · rintro ⟨out, hout⟩
    cases hcols : columnsErr? infile with
    | none => exact (columnsErr?_eq_none_iff infile).mp hcols
    | some err =>
      rw [apply_cuts_chunked_err_cols infile cfg c err hsel hlenall hcols hc hn]
        at hout
      exact Except.noConfusion hout
  · intro hdims
    exact ⟨specOut infile cfg (get_number_of_rows_in_table infile),
      apply_cuts_chunked_ok infile cfg c hsel hnd hsupp hdims hlenall hc hn⟩

/-- C8 witness: the equivalence at a concrete failing table (second axis
3) and a concrete succeeding one (second axis 2). -/
theorem c8_rank2_success_iff_dims_witness :
    (selectionErr? [("a", ColData.d2 3 [[1, 2, 3]])]
        (SelectionConfig.groups []) = none ∧
      (([("a", ColData.d2 3 [[1, 2, 3]])] : H5Table).map Prod.fst).Nodup ∧
      supportedRanks [("a", ColData.d2 3 [[1, 2, 3]])] = true ∧
      tableLenOk [("a", ColData.d2 3 [[1, 2, 3]])]
        (get_number_of_rows_in_table [("a", ColData.d2 3 [[1, 2, 3]])]) = true) ∧
    ((∃ out, apply_cuts_h5py_chunked [("a", ColData.d2 3 [[1, 2, 3]])]
        (SelectionConfig.groups []) 1 = .ok out) ↔
      dimsOk [("a", ColData.d2 3 [[1, 2, 3]])] = true) :=
  ⟨⟨by decide, by decide, by decide, by decide⟩,
    c8_rank2_success_iff_dims _ _ 1 (by decide) (by decide) (by decide)
      (by decide) (by decide) (by decide)⟩

/-- C6.  The claim as stated is false: on a zero-row table there are
zero chunks, the mask evaluator never runs, and the malformed group
raises nothing — the run returns an (empty) output instead of
`ValueError`. -/
theorem c6_malformed_empty_table_counterexample :
    apply_cuts_h5py_chunked [("x", ColData.d1 [])]
        (SelectionConfig.groups [[("x", ("<", 5)), ("y", ("<", 5))]]) 1 =
      .ok [] ∧
    apply_cuts_h5py_chunked [("x", ColData.d1 [])]
        (SelectionConfig.groups [[("x", ("<", 5)), ("y", ("<", 5))]]) 1 ≠
      .error .valueError := by
  refine ⟨rfl, ?_⟩
  intro h
  rw [show apply_cuts_h5py_chunked [("x", ColData.d1 [])]
      (SelectionConfig.groups [[("x", ("<", 5)), ("y", ("<", 5))]]) 1 =
    Except.ok [] from rfl] at h
  exact Except.noConfusion h

/-- C6 (amended).  For every input table with at least one row and every
selection configuration holding a group that names more than one column
(every group before it evaluating cleanly), the chunked copy raises
`ValueError` (the malformed-selection-entry error) during the first
chunk's mask evaluation, before any rows are written; the check runs per
chunk rather than in a separate compile phase, and the output file has
already been opened for writing when it fires. -/
theorem c6_malformed_entry_error (infile : H5Table) (cfg : SelectionConfig)
    (c : Nat) (pre : List SelGroup) (bad : SelGroup) (rest : List SelGroup)
    (hcfg : normalizeConfig cfg = pre ++ bad :: rest)
    (hpre : ∀ g ∈ pre, groupErr? infile g = none)
    (hbad : 1 < bad.length)
    (hc : 1 ≤ c) (hn : 1 ≤ get_number_of_rows_in_table infile) :
    apply_cuts_h5py_chunked infile cfg c = .error .valueError := by
  have hsel : selectionErr? infile cfg = some .valueError := by
    unfold selectionErr?
    rw [hcfg, findSome?_append_none _ pre _ hpre, List.findSome?_cons,
      show groupErr? infile bad = some .valueError from by
        unfold groupErr?
        rw [if_pos hbad]]
  exact apply_cuts_chunked_err_sel infile cfg c .valueError hsel rfl hc hn

/-- C6 witness: the malformed-entry failure at a concrete nonempty table. -/
theorem c6_malformed_entry_error_witness :
    (normalizeConfig (SelectionConfig.groups
        [[("x", ("<", 9)), ("y", ("<", 9))]]) =
      ([] : List SelGroup) ++
        ([("x", ("<", 9)), ("y", ("<", 9))] : SelGroup) :: ([] : List SelGroup) ∧
      (∀ g ∈ ([] : List SelGroup),
        groupErr? [("x", ColData.d1 [1])] g = none) ∧
      1 < ([("x", ("<", 9)), ("y", ("<", 9))] : SelGroup).length ∧
      1 ≤ get_number_of_rows_in_table [("x", ColData.d1 [1])]) ∧
    apply_cuts_h5py_chunked [("x", ColData.d1 [1])]
        (SelectionConfig.groups [[("x", ("<", 9)), ("y", ("<", 9))]]) 1 =
      .error .valueError :=
  ⟨⟨by decide, by decide, by decide, by decide⟩,
    c6_malformed_entry_error [("x", ColData.d1 [1])]
      (SelectionConfig.groups [[("x", ("<", 9)), ("y", ("<", 9))]]) 1 []
      [("x", ("<", 9)), ("y", ("<", 9))] [] (by decide) (by decide) (by decide)
      (by decide) (by decide)⟩

/-- C7.  The claim as stated is false: on a zero-row table there are
zero chunks and the unknown operator token raises nothing — there is no
separate compile phase, operator lookup happens during per-chunk mask
evaluation. -/
theorem c7_unknown_operator_empty_table_counterexample :
    apply_cuts_h5py_chunked [("x", ColData.d1 [])]
        (SelectionConfig.groups [[("x", ("<>", 5))]]) 1 = .ok [] ∧
    apply_cuts_h5py_chunked [("x", ColData.d1 [])]
        (SelectionConfig.groups [[("x", ("<>", 5))]]) 1 ≠
      .error (.keyError "<>") := by
  refine ⟨rfl, ?_⟩
  intro h
  rw [show apply_cuts_h5py_chunked [("x", ColData.d1 [])]
      (SelectionConfig.groups [[("x", ("<>", 5))]]) 1 =
    Except.ok [] from rfl] at h
  exact Except.noConfusion h

/-- C7 (amended).  For every input table with at least one row and every
selection configuration holding a criterion whose operator token is not
in `OPERATORS` (every group before it evaluating cleanly), the chunked
copy raises `KeyError` with that token during the first chunk's mask
evaluation, before any rows are written — not in a separate compile
phase, which does not exist. -/
theorem c7_unknown_operator_error (infile : H5Table) (cfg : SelectionConfig)
    (c : Nat) (pre : List SelGroup) (name op : String) (v : Int)
    (rest : List SelGroup)
    (hcfg : normalizeConfig cfg = pre ++ [(name, op, v)] :: rest)
    (hpre : ∀ g ∈ pre, groupErr? infile g = none)
    (hop : OPERATORS op = none)
    (hc : 1 ≤ c) (hn : 1 ≤ get_number_of_rows_in_table infile) :
    apply_cuts_h5py_chunked infile cfg c = .error (.keyError op) := by
  have hsel : selectionErr? infile cfg = some (.keyError op) := by
    unfold selectionErr?
    rw [hcfg, findSome?_append_none _ pre _ hpre, List.findSome?_cons,
      show groupErr? infile [(name, op, v)] = some (.keyError op) from by
        unfold groupErr?
        norm_num
        rw [hop]]
  exact apply_cuts_chunked_err_sel infile cfg c (.keyError op) hsel rfl hc hn

/-- C7 witness: the unknown-operator failure at a concrete nonempty
table, also showing the legacy dict form is covered. -/
theorem c7_unknown_operator_error_witness :
    (normalizeConfig (SelectionConfig.legacy [("x", ("<>", 5))]) =
      ([] : List SelGroup) ++
        ([("x", ("<>", 5))] : SelGroup) :: ([] : List SelGroup) ∧
      (∀ g ∈ ([] : List SelGroup),
        groupErr? [("x", ColData.d1 [1])] g = none) ∧
      OPERATORS "<>" = none ∧
      1 ≤ get_number_of_rows_in_table [("x", ColData.d1 [1])]) ∧
    apply_cuts_h5py_chunked [("x", ColData.d1 [1])]
        (SelectionConfig.legacy [("x", ("<>", 5))]) 1 =
      .error (.keyError "<>") :=
  ⟨⟨by decide, by decide, by decide, by decide⟩,
    c7_unknown_operator_error [("x", ColData.d1 [1])]
      (SelectionConfig.legacy [("x", ("<>", 5))]) 1 [] "x" "<>" 5 []
      (by decide) (by decide) (by decide) (by decide) (by decide)⟩

theorem maskLoopH5_congr_mid (infile : H5Table) (s e : Nat)
    (g1 g2 : SelGroup) (post : List SelGroup)
    (hstep : ∀ mask, maskStepH5 infile s e mask g1 =
      maskStepH5 infile s e mask g2) :
    ∀ (pre : List SelGroup) (mask : MaskArray),
      maskLoopH5 infile s e (pre ++ g1 :: post) mask =
        maskLoopH5 infile s e (pre ++ g2 :: post) mask := by
  intro pre
  induction pre with
  | nil =>
    intro mask
    simp only [List.nil_append, maskLoopH5, hstep mask]
  | cons q pre' ih =>
    intro mask
    simp only [List.cons_append, maskLoopH5]
    cases hq : maskStepH5 infile s e mask q with
    | error err => rfl
    | ok m' => exact ih m'

/-- C10.  The operator table also accepts the spelling `=` and resolves
it to equality, beyond the six symbolic and six mnemonic spellings: for
every selection configuration, replacing `==` by `=` in any criterion
leaves the mask evaluation of `create_mask_h5py` unchanged. -/
theorem c10_equals_alias (infile : H5Table) (n : Nat) (s? e? : Option Nat)
    (pre post : List SelGroup) (name : String) (v : Int) :
    OPERATORS "=" = some Op.eq ∧ OPERATORS "==" = some Op.eq ∧
    create_mask_h5py infile
        (SelectionConfig.groups (pre ++ [(name, ("=", v))] :: post)) n s? e? =
      create_mask_h5py infile
        (SelectionConfig.groups (pre ++ [(name, ("==", v))] :: post)) n s? e? := by
  refine ⟨rfl, rfl, ?_⟩
  simp only [create_mask_h5py, normalizeConfig]
  exact maskLoopH5_congr_mid infile (pyStart s?) (pyEnd e? n)
    [(name, ("=", v))] [(name, ("==", v))] post (fun mask => by rfl) pre _

/-! Characterisation of `create_mask_table`, parallel to
`create_mask_h5py` (the pytables evaluator checks column membership
explicitly, before the operator lookup). -/

theorem map_range'_getD (s k i : Nat) (f : Nat → Bool) (h : i < k) :
    ((List.range' s k).map f).getD i false = f (s + i) := by
  rw [List.getD_eq_getElem _ _ (by simpa using h)]
  rw [List.getElem_map, List.getElem_range']
  norm_num

theorem PTable.col_length (t : PTable) (name : String)
    (h : t.colnames.contains name = true) :
    (t.col name).length = t.rows.length := by
  obtain ⟨i, hi, _⟩ := indexOf?_some_of_contains t.colnames name h
  unfold PTable.col
  rw [hi, List.length_map]

theorem maskStepTable_err (t : PTable) (s e : Nat) (mask : List Bool)
    (g : SelGroup) (err : Err) (h : groupErrT? t g = some err) :
    maskStepTable t s e mask g = .error err := by
  match g with
  | [] => simp [groupErrT?] at h; simp [maskStepTable, ← h]
  | (name, op, v) :: c :: tl =>
    simp [groupErrT?] at h
    simp [maskStepTable, ← h]
  | [(name, op, v)] =>
    simp only [groupErrT?] at h
    simp only [maskStepTable]
    norm_num at h ⊢
    by_cases hcon : name ∈ t.colnames
    · rw [if_pos hcon] at h
      rw [if_pos hcon]
      cases hop : OPERATORS op with
      | none => rw [hop] at h; injection h with h; rw [← h]
      | some o => rw [hop] at h; exact Option.noConfusion h
    · rw [if_neg hcon] at h
      rw [if_neg hcon]
      injection h with h
      rw [← h]

theorem groupErrT?_none (t : PTable) (g : SelGroup)
    (h : groupErrT? t g = none) :
    ∃ name op v o, g = [(name, op, v)] ∧ t.colnames.contains name = true ∧
      OPERATORS op = some o := by
  match g with
  | [] => simp [groupErrT?] at h
  | (name, op, v) :: c :: tl => simp [groupErrT?] at h
  | [(name, op, v)] =>
    simp only [groupErrT?] at h
    norm_num at h
    by_cases hcon : name ∈ t.colnames
    · rw [if_pos hcon] at h
      cases hop : OPERATORS op with
      | none => rw [hop] at h; exact Option.noConfusion h
      | some o => exact ⟨name, op, v, o, rfl, by simpa using hcon, hop⟩
    · rw [if_neg hcon] at h
      exact Option.noConfusion h

theorem maskStepTable_ok (t : PTable) (s e : Nat) (F : Nat → Bool)
    (name op : String) (v : Int) (o : Op)
    (hcon : t.colnames.contains name = true) (hop : OPERATORS op = some o)
    (hse : s ≤ e) (hen : e ≤ t.rows.length) :
    maskStepTable t s e ((List.range' s (e - s)).map F) [(name, op, v)] =
      .ok ((List.range' s (e - s)).map
        (fun r => F r && critPassT t r (name, op, v))) := by
  simp only [maskStepTable, hcon, hop]
  norm_num
  rw [pySlice_eq_map (t.col name) 0 s e hse
    (by rw [PTable.col_length t name hcon]; omega), List.map_map, npLogicalAnd_map]
  have hmem : name ∈ t.colnames := by simpa using hcon
  congr 1
  funext r
  simp only [Function.comp]
  congr 1
  simp [critPassT, hmem, hop]

theorem maskLoopTable_cons_ok (t : PTable) (s e : Nat) (g : SelGroup)
    (gs : List SelGroup) (mask m' : List Bool)
    (h : maskStepTable t s e mask g = .ok m') :
    maskLoopTable t s e (g :: gs) mask = maskLoopTable t s e gs m' := by
  simp [maskLoopTable, h]

theorem maskLoopTable_cons_err (t : PTable) (s e : Nat) (g : SelGroup)
    (gs : List SelGroup) (mask : List Bool) (err : Err)
    (h : maskStepTable t s e mask g = .error err) :
    maskLoopTable t s e (g :: gs) mask = .error err := by
  simp [maskLoopTable, h]

theorem maskLoopTable_ok (t : PTable) (s e : Nat)
    (hse : s ≤ e) (hen : e ≤ t.rows.length) :
    ∀ (gs : List SelGroup) (F : Nat → Bool),
      gs.findSome? (groupErrT? t) = none →
      maskLoopTable t s e gs ((List.range' s (e - s)).map F) =
        .ok ((List.range' s (e - s)).map
          (fun r => F r && gs.all (fun g => g.all (critPassT t r)))) := by
  intro gs
  induction gs with
  | nil =>
    intro F _
    simp [maskLoopTable]
  | cons g gs ih =>
    intro F h
    rw [List.findSome?_cons] at h
    cases hg : groupErrT? t g with
    | some err' => rw [hg] at h; exact Option.noConfusion h
    | none =>
      rw [hg] at h
      obtain ⟨name, op, v, o, hgeq, hcon, hop⟩ := groupErrT?_none t g hg
      subst hgeq
      rw [maskLoopTable_cons_ok t s e _ gs _ _
        (maskStepTable_ok t s e F name op v o hcon hop hse hen)]
      rw [ih _ h]
      congr 1
      apply List.map_congr_left
      intro r _
      simp [Bool.and_assoc]

theorem create_mask_table_ok (t : PTable) (cfg : SelectionConfig)
    (s e : Nat) (hsel : selectionErrT? t cfg = none)
    (hse : s ≤ e) (he : 1 ≤ e) (hen : e ≤ t.rows.length) :
    create_mask_table t cfg t.rows.length (some s) (some e) =
      .ok ((List.range' s (e - s)).map (rowPassT t cfg)) := by
  unfold create_mask_table
  rw [show pyStart (some s) = s from rfl, pyEnd_some e t.rows.length he hen,
    replicate_true_eq_map s (e - s),
    maskLoopTable_ok t s e hse hen _ _ hsel]
  congr 1

theorem create_mask_table_full (t : PTable) (cfg : SelectionConfig)
    (hsel : selectionErrT? t cfg = none) :
    create_mask_table t cfg t.rows.length none none =
      .ok ((List.range' 0 t.rows.length).map (rowPassT t cfg)) := by
  unfold create_mask_table
  rw [show pyStart none = 0 from rfl, show pyEnd none t.rows.length =
    t.rows.length from rfl, replicate_true_eq_map 0 (t.rows.length - 0),
    maskLoopTable_ok t 0 t.rows.length (by omega) (by omega) _ _ hsel]
  congr 1

/-- C2.  On every chunk `[start, end)` with `1 ≤ end ≤ n_events` of a
well-formed table, and every selection whose criteria all compile (all
groups single-entry, operators known, columns present with rank 1), both
mask evaluators return a mask of length `end - start` whose bit `i` is
true exactly when every criterion of every group holds for row
`start + i` (the mask starts all-true and criteria are ANDed in order).
The `end = 0` case is excluded: Python's `end or`-style default would
silently replace it with `n_events`, but the chunk driver never produces
it. -/
theorem c2_mask_correctness (infile : H5Table) (t : PTable)
    (cfgH cfgT : SelectionConfig) (n s e sT eT : Nat)
    (hselH : selectionErr? infile cfgH = none)
    (hlenH : tableLenOk infile n = true)
    (hseH : s ≤ e) (heH : 1 ≤ e) (henH : e ≤ n)
    (hselT : selectionErrT? t cfgT = none)
    (hseT : sT ≤ eT) (heT : 1 ≤ eT) (henT : eT ≤ t.rows.length) :
    (∃ m, create_mask_h5py infile cfgH n (some s) (some e) = .ok (.one m) ∧
      m.length = e - s ∧
      ∀ i, i < e - s → (m.getD i false = true ↔
        ∀ g ∈ normalizeConfig cfgH, ∀ cr ∈ g,
          critPass infile (s + i) cr = true)) ∧
    (∃ m, create_mask_table t cfgT t.rows.length (some sT) (some eT) = .ok m ∧
      m.length = eT - sT ∧
      ∀ i, i < eT - sT → (m.getD i false = true ↔
        ∀ g ∈ normalizeConfig cfgT, ∀ cr ∈ g,
          critPassT t (sT + i) cr = true)) := by
  constructor
  · refine ⟨(List.range' s (e - s)).map (rowPass infile cfgH),
      create_mask_h5py_ok infile cfgH n s e hselH hlenH hseH heH henH, ?_, ?_⟩
    · rw [List.length_map, List.length_range']
    · intro i hi
      rw [map_range'_getD s (e - s) i _ hi]
      unfold rowPass
      rw [List.all_eq_true]
      constructor
      · intro h g hg
        have := h g hg
        rwa [List.all_eq_true] at this
      · intro h g hg
        rw [List.all_eq_true]
        exact h g hg
  · refine ⟨(List.range' sT (eT - sT)).map (rowPassT t cfgT),
      create_mask_table_ok t cfgT sT eT hselT hseT heT henT, ?_, ?_⟩
    · rw [List.length_map, List.length_range']
    · intro i hi
      rw [map_range'_getD sT (eT - sT) i _ hi]
      unfold rowPassT
      rw [List.all_eq_true]
      constructor
      · intro h g hg
        have := h g hg
        rwa [List.all_eq_true] at this
      · intro h g hg
        rw [List.all_eq_true]
        exact h g hg

/-- C2 witness: both evaluators at a concrete chunk `[1, 3)` of concrete
tables, with two criteria on the same column. -/
theorem c2_mask_correctness_witness :
    (selectionErr? [("x", ColData.d1 [1, 2, 3])]
        (SelectionConfig.groups [[("x", (">", 1))], [("x", ("<", 3))]]) = none ∧
      tableLenOk [("x", ColData.d1 [1, 2, 3])] 3 = true ∧
      selectionErrT? ⟨"tel", ["x"], [[1], [2], [3]]⟩
        (SelectionConfig.groups [[("x", (">", 1))], [("x", ("<", 3))]]) = none) ∧
    ((∃ m, create_mask_h5py [("x", ColData.d1 [1, 2, 3])]
        (SelectionConfig.groups [[("x", (">", 1))], [("x", ("<", 3))]]) 3
        (some 1) (some 3) = .ok (.one m) ∧
      m.length = 3 - 1 ∧
      ∀ i, i < 3 - 1 → (m.getD i false = true ↔
        ∀ g ∈ normalizeConfig
          (SelectionConfig.groups [[("x", (">", 1))], [("x", ("<", 3))]]),
          ∀ cr ∈ g, critPass [("x", ColData.d1 [1, 2, 3])] (1 + i) cr = true)) ∧
    (∃ m, create_mask_table ⟨"tel", ["x"], [[1], [2], [3]]⟩
        (SelectionConfig.groups [[("x", (">", 1))], [("x", ("<", 3))]])
        (⟨"tel", ["x"], [[1], [2], [3]]⟩ : PTable).rows.length
        (some 1) (some 3) = .ok m ∧
      m.length = 3 - 1 ∧
      ∀ i, i < 3 - 1 → (m.getD i false = true ↔
        ∀ g ∈ normalizeConfig
          (SelectionConfig.groups [[("x", (">", 1))], [("x", ("<", 3))]]),
          ∀ cr ∈ g, critPassT ⟨"tel", ["x"], [[1], [2], [3]]⟩ (1 + i) cr = true))) :=
  ⟨⟨by decide, by decide, by decide⟩,
    c2_mask_correctness [("x", ColData.d1 [1, 2, 3])]
      ⟨"tel", ["x"], [[1], [2], [3]]⟩
      (SelectionConfig.groups [[("x", (">", 1))], [("x", ("<", 3))]])
      (SelectionConfig.groups [[("x", (">", 1))], [("x", ("<", 3))]])
      3 1 3 1 3 (by decide) (by decide) (by decide) (by decide) (by decide)
      (by decide) (by decide) (by decide) (by decide)⟩

/-! Characterisation of the cascade filter `apply_cuts_cta_dl1`. -/

theorem rowVal_some (colnames : List String) (row : List Int) (name : String)
    (hcon : colnames.contains name = true)
    (hlen : row.length = colnames.length) :
    ∃ v, rowVal colnames row name = some v := by
  obtain ⟨i, hi, hilen⟩ := indexOf?_some_of_contains colnames name hcon
  refine ⟨row.getD i 0, ?_⟩
  unfold rowVal
  rw [hi]
  show row.get? i = some (row.getD i 0)
  rw [List.get?_eq_getElem?, List.getD_eq_getElem row 0 (by omega)]
  exact List.getElem?_eq_getElem (by omega)

theorem rowVal_none (colnames : List String) (row : List Int) (name : String)
    (hcon : colnames.contains name = false) :
    rowVal colnames row name = none := by
  unfold rowVal
  rw [indexOf?_none_of_not_contains colnames name hcon]
  rfl

theorem phase1Rows_ok (colnames : List String)
    (hobs : colnames.contains "obs_id" = true)
    (hevt : colnames.contains "event_id" = true) :
    ∀ (rows : List (List Int)) (mask : List Bool)
      (surv : List (Int × Int)) (out : List (List Int)) (nb na : Nat),
      (∀ r ∈ rows, r.length = colnames.length) →
      mask.length = rows.length →
      ∃ out' nb' na',
        phase1Rows colnames (rows.zip mask) surv out nb na =
          .ok (((applyMask rows mask).map (keyOf colnames)).reverse ++ surv,
            out', nb', na') := by
  intro rows
  induction rows with
  | nil =>
    intro mask surv out nb na _ hml
    rw [List.length_nil, List.length_eq_zero] at hml
    subst hml
    exact ⟨out, nb, na, rfl⟩
  | cons r rs ih =>
    intro mask surv out nb na hlen hml
    cases mask with
    | nil => simp at hml
    | cons m ms =>
      simp only [List.length_cons] at hml
      have hrlen : r.length = colnames.length := hlen r (List.mem_cons_self _ _)
      have hrest := fun q hq => hlen q (List.mem_cons_of_mem _ hq)
      cases m with
      | false =>
        simp only [List.zip_cons_cons, phase1Rows]
        have happ : applyMask (r :: rs) (false :: ms) = applyMask rs ms := by
          simp [applyMask]
        rw [happ]
        exact ih ms surv out (nb + 1) na hrest (by omega)
      | true =>
        obtain ⟨o, ho⟩ := rowVal_some colnames r "obs_id" hobs hrlen
        obtain ⟨ev, hev⟩ := rowVal_some colnames r "event_id" hevt hrlen
        simp only [List.zip_cons_cons, phase1Rows, ho, hev]
        have happ : applyMask (r :: rs) (true :: ms) = r :: applyMask rs ms := by
          simp [applyMask]
        rw [happ]
        have hkey : keyOf colnames r = (o, ev) := by
          unfold keyOf
          rw [ho, hev]
          rfl
        obtain ⟨out', nb', na', hrec⟩ :=
          ih ms ((o, ev) :: surv) (out ++ [r]) (nb + 1) (na + 1) hrest (by omega)
        refine ⟨out', nb', na', ?_⟩
        rw [if_pos trivial, show List.zipWith Prod.mk rs ms = rs.zip ms from rfl,
          hrec]
        rw [List.map_cons, hkey, List.reverse_cons, List.append_assoc]
        rfl

theorem applyMask_rowPassT (t : PTable) (cfg : SelectionConfig) :
    applyMask t.rows ((List.range' 0 t.rows.length).map (rowPassT t cfg)) =
      ((List.range t.rows.length).filter (rowPassT t cfg)).map
        (fun i => t.rows.getD i []) := by
  rw [List.range_eq_range']
  generalize hN : t.rows.length = N
  have hrows : t.rows = (List.range' 0 N).map (fun i => t.rows.getD i []) := by
    rw [← hN, ← List.range_eq_range']
    exact list_eq_range_map_getD t.rows []
  conv_lhs => rw [hrows]
  rw [applyMask_map]

theorem phase1Tables_ok (cfg : SelectionConfig) :
    ∀ (tables : List PTable) (surv : List (Int × Int)) (outs : List PTable)
      (nb na : Nat),
      (∀ t ∈ tables, selectionErrT? t cfg = none ∧
        t.colnames.contains "obs_id" = true ∧
        t.colnames.contains "event_id" = true ∧
        ∀ r ∈ t.rows, r.length = t.colnames.length) →
      ∃ surv' pt nb' na',
        phase1Tables cfg tables surv outs nb na = .ok (surv', pt, nb', na') ∧
        ∀ k, k ∈ surv' ↔ k ∈ (tables.map (passingKeys cfg)).flatten ∨ k ∈ surv := by
  intro tables
  induction tables with
  | nil =>
    intro surv outs nb na _
    exact ⟨surv, outs, nb, na, rfl, by simp⟩
  | cons t rest ih =>
    intro surv outs nb na hwf
    obtain ⟨hsel, hobs, hevt, hrlen⟩ := hwf t (List.mem_cons_self _ _)
    have hrest := fun q hq => hwf q (List.mem_cons_of_mem _ hq)
    have hmask := create_mask_table_full t cfg hsel
    obtain ⟨out', nb', na', hrows⟩ := phase1Rows_ok t.colnames hobs hevt t.rows
      ((List.range' 0 t.rows.length).map (rowPassT t cfg)) surv [] nb na hrlen
      (by rw [List.length_map, List.length_range'])
    obtain ⟨surv2, pt2, nb2, na2, hrec, hmem⟩ := ih
      (((applyMask t.rows ((List.range' 0 t.rows.length).map (rowPassT t cfg))).map
        (keyOf t.colnames)).reverse ++ surv)
      (outs ++ [{ t with rows := out' }]) nb' na' hrest
    refine ⟨surv2, pt2, nb2, na2, ?_, ?_⟩
    · simp only [phase1Tables, hmask, hrows]
      exact hrec
    · intro k
      rw [hmem k, applyMask_rowPassT t cfg]
      simp only [List.map_cons, List.flatten_cons, List.mem_append,
        List.mem_reverse, List.map_map, Function.comp]
      unfold passingKeys
      tauto

theorem phase2Rows_filter (colnames : List String) (surv : List (Int × Int))
    (hevt : colnames.contains "event_id" = true)
    (hobs : colnames.contains "obs_id" = true) :
    ∀ (rows : List (List Int)), (∀ r ∈ rows, r.length = colnames.length) →
      phase2Rows colnames surv rows =
        .ok (rows.filter (fun r => decide (keyOf colnames r ∈ surv))) := by
  intro rows
  induction rows with
  | nil => intro _; rfl
  | cons r rs ih =>
    intro hlen
    have hrlen : r.length = colnames.length := hlen r (List.mem_cons_self _ _)
    have hrest := fun q hq => hlen q (List.mem_cons_of_mem _ hq)
    obtain ⟨o, ho⟩ := rowVal_some colnames r "obs_id" hobs hrlen
    obtain ⟨ev, hev⟩ := rowVal_some colnames r "event_id" hevt hrlen
    have hkey : keyOf colnames r = (o, ev) := by
      unfold keyOf
      rw [ho, hev]
      rfl
    simp only [phase2Rows, hevt, eq_self_iff_true, if_true, ho, hev,
      List.filter_cons, hkey]
    by_cases hs : (o, ev) ∈ surv
    · simp [hs, ih hrest]
      rfl
    · simp [hs, ih hrest]

theorem phase2Rows_copy (colnames : List String) (surv : List (Int × Int))
    (hevt : colnames.contains "event_id" = false) :
    ∀ (rows : List (List Int)), phase2Rows colnames surv rows = .ok rows := by
  intro rows
  induction rows with
  | nil => rfl
  | cons r rs ih =>
    simp only [phase2Rows, hevt]
    norm_num
    rw [ih]
    rfl

theorem phase2Tables_ok (surv : List (Int × Int)) :
    ∀ (tables : List PTable),
      (∀ t ∈ tables, t.colnames.contains "event_id" = false ∨
        (t.colnames.contains "obs_id" = true ∧
          ∀ r ∈ t.rows, r.length = t.colnames.length)) →
      phase2Tables surv tables = .ok (tables.map (fun t =>
        if t.colnames.contains "event_id" then
          { t with rows := t.rows.filter (fun r => decide (keyOf t.colnames r ∈ surv)) }
        else t)) := by
  intro tables
  induction tables with
  | nil => intro _; rfl
  | cons t rest ih =>
    intro hwf
    have ht := hwf t (List.mem_cons_self _ _)
    have hrest := fun q hq => hwf q (List.mem_cons_of_mem _ hq)
    rw [List.map_cons]
    cases hevt : t.colnames.contains "event_id" with
    | false =>
      simp only [phase2Tables, phase2Rows_copy t.colnames surv hevt t.rows,
        ih hrest]
      simp only [hevt, Bool.false_eq_true, if_false]
      rfl
    | true =>
      rcases ht with h | ⟨hobs, hlen⟩
      · rw [hevt] at h
        exact Bool.noConfusion h
      · simp only [phase2Tables,
          phase2Rows_filter t.colnames surv hevt hobs t.rows hlen, ih hrest]
        simp only [hevt, if_pos]
        rfl

theorem phase2Tables_err (surv : List (Int × Int)) (err : Err) :
    ∀ (pre : List PTable) (bad : PTable) (rest : List PTable),
      (∀ t ∈ pre, t.colnames.contains "event_id" = false ∨
        (t.colnames.contains "obs_id" = true ∧
          ∀ r ∈ t.rows, r.length = t.colnames.length)) →
      phase2Rows bad.colnames surv bad.rows = .error err →
      phase2Tables surv (pre ++ bad :: rest) = .error err := by
  intro pre
  induction pre with
  | nil =>
    intro bad rest _ hbad
    simp only [List.nil_append, phase2Tables, hbad]
  | cons q pre' ih =>
    intro bad rest hwf hbad
    have hq := hwf q (List.mem_cons_self _ _)
    have hrest := fun p hp => hwf p (List.mem_cons_of_mem _ hp)
    rw [List.cons_append]
    have hrec := ih bad rest hrest hbad
    cases hevt : q.colnames.contains "event_id" with
    | false =>
      simp only [phase2Tables, phase2Rows_copy q.colnames surv hevt q.rows, hrec]
      rfl
    | true =>
      rcases hq with h | ⟨hobs, hlen⟩
      · rw [hevt] at h
        exact Bool.noConfusion h
      · simp only [phase2Tables,
          phase2Rows_filter q.colnames surv hevt hobs q.rows hlen, hrec]
        rfl

/-- C3.  After phase 1 has fully populated the survivor key set with the
`(obs_id, event_id)` keys of all selection-passing rows of every
parameter table, each dependent table holding an `event_id` column (and,
as the code requires, an `obs_id` column) keeps exactly the rows whose
key is in the survivor set, and each table without an `event_id` column
is copied unchanged, same rows in the same order. -/
theorem c3_cascade_correctness (input : DL1Input) (cfg : SelectionConfig)
    (hp : ∀ t ∈ input.parameters, selectionErrT? t cfg = none ∧
      t.colnames.contains "obs_id" = true ∧
      t.colnames.contains "event_id" = true ∧
      ∀ r ∈ t.rows, r.length = t.colnames.length)
    (ho : ∀ t ∈ input.others, t.colnames.contains "event_id" = false ∨
      (t.colnames.contains "obs_id" = true ∧
        ∀ r ∈ t.rows, r.length = t.colnames.length)) :
    ∃ pt nb na, apply_cuts_cta_dl1 input cfg = .ok (pt,
      input.others.map (fun t =>
        if t.colnames.contains "event_id" then
          { t with rows := t.rows.filter (fun r => decide (keyOf t.colnames r ∈ survivorsSpec input cfg)) }
        else t), nb, na) := by
  obtain ⟨surv, pt, nb, na, hph1, hmem⟩ :=
    phase1Tables_ok cfg input.parameters [] [] 0 0 hp
  have hph2 := phase2Tables_ok surv input.others ho
  refine ⟨pt, nb, na, ?_⟩
  simp only [apply_cuts_cta_dl1, hph1, hph2]
  refine congrArg Except.ok ?_
  refine congrArg (fun x => (pt, x, nb, na)) ?_
  apply List.map_congr_left
  intro t ht
  by_cases hevt : t.colnames.contains "event_id" = true
  · simp only [hevt, eq_self_iff_true, if_true]
    have hfilter : t.rows.filter (fun r => decide (keyOf t.colnames r ∈ surv)) =
        t.rows.filter (fun r =>
          decide (keyOf t.colnames r ∈ survivorsSpec input cfg)) := by
      apply List.filter_congr
      intro r _
      rw [decide_eq_decide, hmem (keyOf t.colnames r)]
      simp [survivorsSpec]
    rw [hfilter]
  · simp only [Bool.not_eq_true] at hevt
    have hnm : "event_id" ∉ t.colnames := by simpa using hevt
    simp [hnm]

/-- C3 witness: the cascade correctness at the specification's concrete
scenario. -/
theorem c3_cascade_correctness_witness :
    ((∀ t ∈ scenarioInput.parameters,
        selectionErrT? t scenarioSelection = none ∧
        t.colnames.contains "obs_id" = true ∧
        t.colnames.contains "event_id" = true ∧
        ∀ r ∈ t.rows, r.length = t.colnames.length) ∧
      (∀ t ∈ scenarioInput.others,
        t.colnames.contains "event_id" = false ∨
        (t.colnames.contains "obs_id" = true ∧
          ∀ r ∈ t.rows, r.length = t.colnames.length))) ∧
    ∃ pt nb na, apply_cuts_cta_dl1 scenarioInput scenarioSelection = .ok (pt,
      scenarioInput.others.map (fun t =>
        if t.colnames.contains "event_id" then
          { t with rows := t.rows.filter (fun r => decide (keyOf t.colnames r ∈ survivorsSpec scenarioInput scenarioSelection)) }
        else t), nb, na) :=
  ⟨⟨by decide, by decide⟩,
    c3_cascade_correctness scenarioInput scenarioSelection
      (by decide) (by decide)⟩

/-- C9.  The claim as stated is false for an empty dependent table: with
no rows the per-row `row['obs_id']` lookup never executes, so a table
with an `event_id` column but no `obs_id` column and zero rows is copied
unchanged without any failure. -/
theorem c9_empty_table_counterexample :
    apply_cuts_cta_dl1 ⟨[], [⟨"bad", ["event_id"], []⟩]⟩
        (SelectionConfig.groups []) =
      .ok ([], [⟨"bad", ["event_id"], []⟩], 0, 0) := by
  rfl

/-- C9 (amended).  Key filtering of a dependent table is decided solely
by the presence of the `event_id` column, and `row['obs_id']` is then
read unconditionally: a dependent table with an `event_id` column, no
`obs_id` column and at least one row makes the whole cascade fail with
`KeyError('obs_id')` instead of being copied unchanged or filtered.
With zero rows the lookup never runs and the table is copied
unchanged. -/
theorem c9_missing_obs_id_error (input : DL1Input) (cfg : SelectionConfig)
    (pre : List PTable) (bad : PTable) (rest : List PTable)
    (hp : ∀ t ∈ input.parameters, selectionErrT? t cfg = none ∧
      t.colnames.contains "obs_id" = true ∧
      t.colnames.contains "event_id" = true ∧
      ∀ r ∈ t.rows, r.length = t.colnames.length)
    (hsplit : input.others = pre ++ bad :: rest)
    (hpre : ∀ t ∈ pre, t.colnames.contains "event_id" = false ∨
      (t.colnames.contains "obs_id" = true ∧
        ∀ r ∈ t.rows, r.length = t.colnames.length))
    (hevt : bad.colnames.contains "event_id" = true)
    (hobs : bad.colnames.contains "obs_id" = false)
    (hne : bad.rows ≠ []) :
    apply_cuts_cta_dl1 input cfg = .error (.keyError "obs_id") := by
  obtain ⟨surv, pt, nb, na, hph1, _⟩ :=
    phase1Tables_ok cfg input.parameters [] [] 0 0 hp
  have hbad : phase2Rows bad.colnames surv bad.rows =
      .error (.keyError "obs_id") := by
    cases hrows : bad.rows with
    | nil => exact absurd hrows hne
    | cons r rs =>
      simp only [phase2Rows, hevt, eq_self_iff_true, if_true,
        rowVal_none bad.colnames r "obs_id" hobs]
  have hph2 := phase2Tables_err surv (.keyError "obs_id") pre bad rest hpre hbad
  simp only [apply_cuts_cta_dl1, hph1, hsplit, hph2]

/-- C9 witness: the failure at a concrete file whose only dependent
table has an `event_id` column, no `obs_id` column and one row. -/
theorem c9_missing_obs_id_error_witness :
    ((∀ t ∈ (⟨[], [⟨"bad", ["event_id"], [[3]]⟩]⟩ : DL1Input).parameters,
        selectionErrT? t (SelectionConfig.groups []) = none ∧
        t.colnames.contains "obs_id" = true ∧
        t.colnames.contains "event_id" = true ∧
        ∀ r ∈ t.rows, r.length = t.colnames.length) ∧
      (⟨[], [⟨"bad", ["event_id"], [[3]]⟩]⟩ : DL1Input).others =
        [] ++ (⟨"bad", ["event_id"], [[3]]⟩ : PTable) :: [] ∧
      (⟨"bad", ["event_id"], [[3]]⟩ : PTable).colnames.contains "event_id" = true ∧
      (⟨"bad", ["event_id"], [[3]]⟩ : PTable).colnames.contains "obs_id" = false ∧
      (⟨"bad", ["event_id"], [[3]]⟩ : PTable).rows ≠ []) ∧
    apply_cuts_cta_dl1 ⟨[], [⟨"bad", ["event_id"], [[3]]⟩]⟩
        (SelectionConfig.groups []) = .error (.keyError "obs_id") :=
  ⟨⟨by decide, by decide, by decide, by decide, by decide⟩,
    c9_missing_obs_id_error ⟨[], [⟨"bad", ["event_id"], [[3]]⟩]⟩
      (SelectionConfig.groups []) [] ⟨"bad", ["event_id"], [[3]]⟩ []
      (by decide) (by decide) (by decide) (by decide) (by decide) (by decide)⟩
